import Mathlib

/-!
A shallow embedding of the `listwalker` Python package
(`src/listwalker/__init__.py`): cursor-based traversal over 1D sequences and
2D grids with an ignored-position set.

Modelling conventions:
* Python `int` positions become `Int`; sequences become `List`.
* A method that may raise becomes a function into `Except WalkError _`:
  `IndexError` is `WalkError.outOfRange`, `CannotWalkException` is
  `WalkError.cannotWalk`.
* The walk methods mutate `self.cursor` on success only; they are embedded as
  functions returning the updated walker paired with the `Except` result, so a
  raised exception corresponds to the input walker returned unchanged.
* `ListWalkerElement.walker`, the back-reference used only for identity
  comparison, is dropped (it carries no data the claims mention).
* Each `while element.is_ignored` loop becomes a recursive auxiliary function
  (`walkRightAux`, ...) proved terminating by the distance from the candidate
  position to the boundary it moves toward.
-/

namespace ListWalker

/-- `IndexError` / `CannotWalkException` raised by the Python code. -/
inductive WalkError where
  | outOfRange
  | cannotWalk
  deriving Repr, DecidableEq

/-- `ListWalkerElement`: position, value and ignored flag snapshot. -/
structure ListWalkerElement (T P : Type) where
  position : P
  value : T
  is_ignored : Bool
  deriving DecidableEq

variable {T : Type}

/-- `ListWalker1D`: linear data, an `Int` cursor, ignored indices. -/
structure ListWalker1D (T : Type) where
  data : List T
  cursor : Int
  ignored_elements : List Int
  deriving DecidableEq

namespace ListWalker1D

/-- `ListWalker1D.__init__`: cursor `0`, no ignored elements. -/
def init (data : List T) : ListWalker1D T :=
  { data := data, cursor := 0, ignored_elements := [] }

/-- `size`: `len(self.data)`. -/
def size (w : ListWalker1D T) : Int :=
  (w.data.length : Int)

/-- `is_ignored`: `position in self.ignored_elements`. -/
def is_ignored (w : ListWalker1D T) (position : Int) : Bool :=
  w.ignored_elements.contains position

/-- `get`: bounds check, then build the element view. -/
def get (w : ListWalker1D T) (position : Int) :
    Except WalkError (ListWalkerElement T Int) :=
  if position < 0 ∨ w.size ≤ position then
    .error .outOfRange
  else
    match w.data[position.toNat]? with
    | some v => .ok ⟨position, v, w.is_ignored position⟩
    | none => .error .outOfRange

/-- `cursor_element`: `self.get(self.cursor)`. -/
def cursor_element (w : ListWalker1D T) :
    Except WalkError (ListWalkerElement T Int) :=
  w.get w.cursor

/-- `get_left`: `self.get(self.cursor - 1)`. -/
def get_left (w : ListWalker1D T) :
    Except WalkError (ListWalkerElement T Int) :=
  w.get (w.cursor - 1)

/-- `get_right`: `self.get(self.cursor + 1)`. -/
def get_right (w : ListWalker1D T) :
    Except WalkError (ListWalkerElement T Int) :=
  w.get (w.cursor + 1)

/-- `get_neighbors`: collects the directional queries that succeed, keyed by
direction name.  The Python body assigns `position = position or self.cursor`
but then never reads the local: both queries below are relative to the cursor,
so the parameter is dead and the embedding takes no argument for it. -/
def get_neighbors (w : ListWalker1D T) (position : Option Int) :
    List (String × ListWalkerElement T Int) :=
  match position with
  | _ =>
    (match w.get_left with
     | .ok el => [("left", el)]
     | .error _ => []) ++
    (match w.get_right with
     | .ok el => [("right", el)]
     | .error _ => [])

/-- The `while element.is_ignored` loop of `walk_right`: fetch the element at
`position`; while it is ignored step right and fetch again. -/
def walkRightAux (w : ListWalker1D T) (position : Int) :
    Except WalkError (Int × ListWalkerElement T Int) :=
  match h : w.get position with
  | .error e => .error e
  | .ok element =>
    if element.is_ignored then
      w.walkRightAux (position + 1)
    else
      .ok (position, element)
termination_by (w.size - position).toNat
decreasing_by
  simp only [ListWalker1D.get] at h
  split at h
  · simp at h
  · rename_i hc
    omega

/-- The `while element.is_ignored` loop of `walk_left`. -/
def walkLeftAux (w : ListWalker1D T) (position : Int) :
    Except WalkError (Int × ListWalkerElement T Int) :=
  match h : w.get position with
  | .error e => .error e
  | .ok element =>
    if element.is_ignored then
      w.walkLeftAux (position - 1)
    else
      .ok (position, element)
termination_by (position + 1).toNat
decreasing_by
  simp only [ListWalker1D.get] at h
  split at h
  · simp at h
  · rename_i hc
    omega

/-- `walk_right(jump, silent)`: returns the updated walker and the result. -/
def walk_right (w : ListWalker1D T) (jump silent : Bool) :
    ListWalker1D T × Except WalkError (ListWalkerElement T Int) :=
  let position := w.cursor + 1
  match w.get position with
  | .error e =>
    if silent then (w, w.cursor_element) else (w, .error e)
  | .ok element =>
    if !jump && element.is_ignored then
      if silent then (w, w.cursor_element) else (w, .error .cannotWalk)
    else
      match w.walkRightAux position with
      | .ok (pos, el) => ({ w with cursor := pos }, .ok el)
      | .error e =>
        if silent then (w, w.cursor_element) else (w, .error e)

/-- `walk_left(jump, silent)`. -/
def walk_left (w : ListWalker1D T) (jump silent : Bool) :
    ListWalker1D T × Except WalkError (ListWalkerElement T Int) :=
  let position := w.cursor - 1
  match w.get position with
  | .error e =>
    if silent then (w, w.cursor_element) else (w, .error e)
  | .ok element =>
    if !jump && element.is_ignored then
      if silent then (w, w.cursor_element) else (w, .error .cannotWalk)
    else
      match w.walkLeftAux position with
      | .ok (pos, el) => ({ w with cursor := pos }, .ok el)
      | .error e =>
        if silent then (w, w.cursor_element) else (w, .error e)

end ListWalker1D

/-- `ListWalker2D`: grid data, a `[row, col]` cursor, ignored positions.
Python's two-element position lists become `Int × Int` pairs. -/
structure ListWalker2D (T : Type) where
  data : List (List T)
  cursor : Int × Int
  ignored_elements : List (Int × Int)
  deriving DecidableEq

namespace ListWalker2D

/-- `ListWalker2D.__init__`: cursor `[0, 0]`, no ignored elements. -/
def init (data : List (List T)) : ListWalker2D T :=
  { data := data, cursor := (0, 0), ignored_elements := [] }

/-- `size`: `[len(self.data), len(self.data[0])]`, with `0` columns when the
grid has no rows (the `except IndexError` branch). -/
def size (w : ListWalker2D T) : Int × Int :=
  ((w.data.length : Int),
    match w.data.head? with
    | some row => (row.length : Int)
    | none => 0)

/-- `is_ignored`: `position in self.ignored_elements`. -/
def is_ignored (w : ListWalker2D T) (position : Int × Int) : Bool :=
  w.ignored_elements.contains position

/-- `get`: bounds checks against `size` on each axis, then row/column
indexing.  A row shorter than the first row (ragged input) raises
`IndexError` in Python at the indexing step; that is the final `none`
branch here. -/
def get (w : ListWalker2D T) (position : Int × Int) :
    Except WalkError (ListWalkerElement T (Int × Int)) :=
  if position.1 < 0 ∨ (w.size).1 ≤ position.1 then
    .error .outOfRange
  else if position.2 < 0 ∨ (w.size).2 ≤ position.2 then
    .error .outOfRange
  else
    match w.data[position.1.toNat]? with
    | none => .error .outOfRange
    | some row =>
      match row[position.2.toNat]? with
      | none => .error .outOfRange
      | some v => .ok ⟨position, v, w.is_ignored position⟩

/-- `cursor_element`: `self.get(self.cursor)`. -/
def cursor_element (w : ListWalker2D T) :
    Except WalkError (ListWalkerElement T (Int × Int)) :=
  w.get w.cursor

/-- `get_up`: `self.get([self.cursor[0] - 1, self.cursor[1]])`. -/
def get_up (w : ListWalker2D T) :
    Except WalkError (ListWalkerElement T (Int × Int)) :=
  w.get (w.cursor.1 - 1, w.cursor.2)

/-- `get_right`: `self.get([self.cursor[0], self.cursor[1] + 1])`. -/
def get_right (w : ListWalker2D T) :
    Except WalkError (ListWalkerElement T (Int × Int)) :=
  w.get (w.cursor.1, w.cursor.2 + 1)

/-- `get_down`: `self.get([self.cursor[0] + 1, self.cursor[1]])`. -/
def get_down (w : ListWalker2D T) :
    Except WalkError (ListWalkerElement T (Int × Int)) :=
  w.get (w.cursor.1 + 1, w.cursor.2)

/-- `get_left`: `self.get([self.cursor[0], self.cursor[1] - 1])`. -/
def get_left (w : ListWalker2D T) :
    Except WalkError (ListWalkerElement T (Int × Int)) :=
  w.get (w.cursor.1, w.cursor.2 - 1)

/-- `get_neighbors`: collects the directional queries that succeed, keyed by
direction name.  As in 1D, the Python body assigns
`position = position or self.cursor` and never reads the local again: all
four queries are relative to the cursor, so the parameter is dead. -/
def get_neighbors (w : ListWalker2D T) (position : Option (Int × Int)) :
    List (String × ListWalkerElement T (Int × Int)) :=
  match position with
  | _ =>
    (match w.get_up with
     | .ok el => [("up", el)]
     | .error _ => []) ++
    (match w.get_right with
     | .ok el => [("right", el)]
     | .error _ => []) ++
    (match w.get_down with
     | .ok el => [("down", el)]
     | .error _ => []) ++
    (match w.get_left with
     | .ok el => [("left", el)]
     | .error _ => [])

/-- The skip loop of `walk_up`: row decreases while ignored. -/
def walkUpAux (w : ListWalker2D T) (position : Int × Int) :
    Except WalkError (Int × Int × ListWalkerElement T (Int × Int)) :=
  match h : w.get position with
  | .error e => .error e
  | .ok element =>
    if element.is_ignored then
      w.walkUpAux (position.1 - 1, position.2)
    else
      .ok (position.1, position.2, element)
termination_by (position.1 + 1).toNat
decreasing_by
  simp only [ListWalker2D.get] at h
  split at h
  · simp at h
  · rename_i hc
    split at h
    · simp at h
    · omega

/-- The skip loop of `walk_right`: column increases while ignored. -/
def walkRightAux (w : ListWalker2D T) (position : Int × Int) :
    Except WalkError (Int × Int × ListWalkerElement T (Int × Int)) :=
  match h : w.get position with
  | .error e => .error e
  | .ok element =>
    if element.is_ignored then
      w.walkRightAux (position.1, position.2 + 1)
    else
      .ok (position.1, position.2, element)
termination_by ((w.size).2 - position.2).toNat
decreasing_by
  simp only [ListWalker2D.get] at h
  split at h
  · simp at h
  · rename_i hc
    split at h
    · simp at h
    · rename_i hc2
      omega

/-- The skip loop of `walk_down`: row increases while ignored. -/
def walkDownAux (w : ListWalker2D T) (position : Int × Int) :
    Except WalkError (Int × Int × ListWalkerElement T (Int × Int)) :=
  match h : w.get position with
  | .error e => .error e
  | .ok element =>
    if element.is_ignored then
      w.walkDownAux (position.1 + 1, position.2)
    else
      .ok (position.1, position.2, element)
termination_by ((w.size).1 - position.1).toNat
decreasing_by
  simp only [ListWalker2D.get] at h
  split at h
  · simp at h
  · rename_i hc
    split at h
    · simp at h
    · omega

/-- The skip loop of `walk_left`: column decreases while ignored. -/
def walkLeftAux (w : ListWalker2D T) (position : Int × Int) :
    Except WalkError (Int × Int × ListWalkerElement T (Int × Int)) :=
  match h : w.get position with
  | .error e => .error e
  | .ok element =>
    if element.is_ignored then
      w.walkLeftAux (position.1, position.2 - 1)
    else
      .ok (position.1, position.2, element)
termination_by (position.2 + 1).toNat
decreasing_by
  simp only [ListWalker2D.get] at h
  split at h
  · simp at h
  · rename_i hc
    split at h
    · simp at h
    · rename_i hc2
      omega

/-- `walk_up(jump, silent)`. -/
def walk_up (w : ListWalker2D T) (jump silent : Bool) :
    ListWalker2D T × Except WalkError (ListWalkerElement T (Int × Int)) :=
  let position := (w.cursor.1 - 1, w.cursor.2)
  match w.get position with
  | .error e =>
    if silent then (w, w.cursor_element) else (w, .error e)
  | .ok element =>
    if !jump && element.is_ignored then
      if silent then (w, w.cursor_element) else (w, .error .cannotWalk)
    else
      match w.walkUpAux position with
      | .ok (r, c, el) => ({ w with cursor := (r, c) }, .ok el)
      | .error e =>
        if silent then (w, w.cursor_element) else (w, .error e)

/-- `walk_right(jump, silent)`. -/
def walk_right (w : ListWalker2D T) (jump silent : Bool) :
    ListWalker2D T × Except WalkError (ListWalkerElement T (Int × Int)) :=
  let position := (w.cursor.1, w.cursor.2 + 1)
  match w.get position with
  | .error e =>
    if silent then (w, w.cursor_element) else (w, .error e)
  | .ok element =>
    if !jump && element.is_ignored then
      if silent then (w, w.cursor_element) else (w, .error .cannotWalk)
    else
      match w.walkRightAux position with
      | .ok (r, c, el) => ({ w with cursor := (r, c) }, .ok el)
      | .error e =>
        if silent then (w, w.cursor_element) else (w, .error e)

/-- `walk_down(jump, silent)`. -/
def walk_down (w : ListWalker2D T) (jump silent : Bool) :
    ListWalker2D T × Except WalkError (ListWalkerElement T (Int × Int)) :=
  let position := (w.cursor.1 + 1, w.cursor.2)
  match w.get position with
  | .error e =>
    if silent then (w, w.cursor_element) else (w, .error e)
  | .ok element =>
    if !jump && element.is_ignored then
      if silent then (w, w.cursor_element) else (w, .error .cannotWalk)
    else
      match w.walkDownAux position with
      | .ok (r, c, el) => ({ w with cursor := (r, c) }, .ok el)
      | .error e =>
        if silent then (w, w.cursor_element) else (w, .error e)

/-- `walk_left(jump, silent)`. -/
def walk_left (w : ListWalker2D T) (jump silent : Bool) :
    ListWalker2D T × Except WalkError (ListWalkerElement T (Int × Int)) :=
  let position := (w.cursor.1, w.cursor.2 - 1)
  match w.get position with
  | .error e =>
    if silent then (w, w.cursor_element) else (w, .error e)
  | .ok element =>
    if !jump && element.is_ignored then
      if silent then (w, w.cursor_element) else (w, .error .cannotWalk)
    else
      match w.walkLeftAux position with
      | .ok (r, c, el) => ({ w with cursor := (r, c) }, .ok el)
      | .error e =>
        if silent then (w, w.cursor_element) else (w, .error e)

/-- Well-formed 2D input: every row has the first row's length (the spec's
construction contract; ragged grids give undefined `get` behaviour). -/
def Rectangular (w : ListWalker2D T) : Prop :=
  ∀ row ∈ w.data, (row.length : Int) = (w.size).2

instance (w : ListWalker2D T) : Decidable (Rectangular w) := by
  unfold Rectangular
  infer_instance

end ListWalker2D

/-! ## Properties of the 1D walker -/

namespace ListWalker1D

theorem get_oob {w : ListWalker1D T} {p : Int}
    (h : p < 0 ∨ w.size ≤ p) : w.get p = .error .outOfRange := by
  simp only [ListWalker1D.get]
  rw [if_pos h]

theorem get_ok_of_bounds {w : ListWalker1D T} {p : Int}
    (h0 : 0 ≤ p) (h1 : p < w.size) :
    ∃ v, w.data[p.toNat]? = some v ∧
      w.get p = .ok ⟨p, v, w.is_ignored p⟩ := by
  have hlt : p.toNat < w.data.length := by
    simp only [ListWalker1D.size] at h1
    omega
  have hv : w.data[p.toNat]? = some (w.data[p.toNat]) :=
    List.getElem?_eq_getElem hlt
  refine ⟨w.data[p.toNat], hv, ?_⟩
  simp only [ListWalker1D.get]
  rw [if_neg (by omega), hv]

theorem get_ok_inv {w : ListWalker1D T} {p : Int}
    {el : ListWalkerElement T Int} (h : w.get p = .ok el) :
    0 ≤ p ∧ p < w.size ∧ el.position = p ∧
      el.is_ignored = w.is_ignored p ∧ w.data[p.toNat]? = some el.value := by
  simp only [ListWalker1D.get] at h
  split at h
  · simp at h
  · rename_i hc
    split at h
    · rename_i v hv
      simp only [Except.ok.injEq] at h
      subst h
      exact ⟨by omega, by omega, rfl, rfl, hv⟩
    · simp at h

theorem get_error_inv {w : ListWalker1D T} {p : Int} {e : WalkError}
    (h : w.get p = .error e) : e = .outOfRange := by
  simp only [ListWalker1D.get] at h
  split at h
  · simp only [Except.error.injEq] at h
    exact h.symm
  · split at h
    · simp at h
    · simp only [Except.error.injEq] at h
      exact h.symm

theorem walkRightAux_finds {w : ListWalker1D T} {p q : Int}
    (h0 : 0 ≤ p) (hpq : p ≤ q) (hq : q < w.size)
    (hqf : w.is_ignored q = false)
    (hrun : ∀ r, p ≤ r → r < q → w.is_ignored r = true) :
    ∃ v, w.data[q.toNat]? = some v ∧
      w.walkRightAux p = .ok (q, ⟨q, v, false⟩) := by
  by_cases hpq2 : p = q
  · subst hpq2
    obtain ⟨v, hv, hget⟩ := get_ok_of_bounds h0 hq
    refine ⟨v, hv, ?_⟩
    rw [ListWalker1D.walkRightAux, hget]
    simp [hqf]
  · have hlt : p < q := lt_of_le_of_ne hpq hpq2
    have hig : w.is_ignored p = true := hrun p le_rfl hlt
    obtain ⟨v0, hv0, hget⟩ := get_ok_of_bounds h0 (lt_trans hlt hq)
    obtain ⟨v, hv, ih⟩ := walkRightAux_finds (p := p + 1) (q := q)
      (by omega) (by omega) hq hqf (fun r hr1 hr2 => hrun r (by omega) hr2)
    refine ⟨v, hv, ?_⟩
    rw [ListWalker1D.walkRightAux, hget]
    simp only [hig, if_true]
    exact ih
termination_by (q - p).toNat

theorem walkRightAux_all_ignored {w : ListWalker1D T} {p : Int}
    (hrun : ∀ r, p ≤ r → r < w.size → w.is_ignored r = true) :
    w.walkRightAux p = .error .outOfRange := by
  by_cases hin : p < 0 ∨ w.size ≤ p
  · rw [ListWalker1D.walkRightAux, get_oob hin]
  · obtain ⟨v, hv, hget⟩ := get_ok_of_bounds (w := w) (p := p) (by omega) (by omega)
    have hig : w.is_ignored p = true := hrun p le_rfl (by omega)
    rw [ListWalker1D.walkRightAux, hget]
    simp only [hig, if_true]
    exact walkRightAux_all_ignored (p := p + 1)
      (fun r hr1 hr2 => hrun r (by omega) hr2)
termination_by (w.size - p).toNat
decreasing_by omega

theorem walkRightAux_ok_inv {w : ListWalker1D T} {p q : Int}
    {el : ListWalkerElement T Int}
    (h : w.walkRightAux p = .ok (q, el)) :
    0 ≤ q ∧ q < w.size ∧ w.is_ignored q = false ∧
      el.position = q ∧ el.is_ignored = false := by
  generalize hn : (w.size - p).toNat = n
  induction n generalizing p with
  | zero =>
    rw [ListWalker1D.walkRightAux, get_oob (by omega)] at h
    simp at h
  | succ n ih =>
    rw [ListWalker1D.walkRightAux] at h
    split at h
    · simp at h
    · rename_i element hget
      obtain ⟨h0, h1, hpos, hig, _⟩ := get_ok_inv hget
      split at h
      · exact ih h (by omega)
      · rename_i hi
        simp only [Except.ok.injEq, Prod.mk.injEq] at h
        obtain ⟨rfl, rfl⟩ := h
        refine ⟨h0, h1, ?_, hpos, by simpa using hi⟩
        rw [← hig]
        simpa using hi

theorem walkLeftAux_finds {w : ListWalker1D T} {p q : Int}
    (h0 : 0 ≤ q) (hpq : q ≤ p) (hp : p < w.size)
    (hqf : w.is_ignored q = false)
    (hrun : ∀ r, q < r → r ≤ p → w.is_ignored r = true) :
    ∃ v, w.data[q.toNat]? = some v ∧
      w.walkLeftAux p = .ok (q, ⟨q, v, false⟩) := by
  by_cases hpq2 : p = q
  · subst hpq2
    obtain ⟨v, hv, hget⟩ := get_ok_of_bounds h0 hp
    refine ⟨v, hv, ?_⟩
    rw [ListWalker1D.walkLeftAux, hget]
    simp [hqf]
  · have hlt : q < p := lt_of_le_of_ne hpq (fun he => hpq2 he.symm)
    have hig : w.is_ignored p = true := hrun p hlt le_rfl
    obtain ⟨v0, hv0, hget⟩ := get_ok_of_bounds (by omega) hp
    obtain ⟨v, hv, ih⟩ := walkLeftAux_finds (p := p - 1) (q := q)
      h0 (by omega) (by omega) hqf (fun r hr1 hr2 => hrun r hr1 (by omega))
    refine ⟨v, hv, ?_⟩
    rw [ListWalker1D.walkLeftAux, hget]
    simp only [hig, if_true]
    exact ih
termination_by (p - q).toNat
decreasing_by omega

theorem walkLeftAux_all_ignored {w : ListWalker1D T} {p : Int}
    (hrun : ∀ r, 0 ≤ r → r ≤ p → w.is_ignored r = true) :
    w.walkLeftAux p = .error .outOfRange := by
  by_cases hin : p < 0 ∨ w.size ≤ p
  · rw [ListWalker1D.walkLeftAux, get_oob hin]
  · obtain ⟨v, hv, hget⟩ := get_ok_of_bounds (w := w) (p := p) (by omega) (by omega)
    have hig : w.is_ignored p = true := hrun p (by omega) le_rfl
    rw [ListWalker1D.walkLeftAux, hget]
    simp only [hig, if_true]
    exact walkLeftAux_all_ignored (p := p - 1)
      (fun r hr1 hr2 => hrun r hr1 (by omega))
termination_by (p + 1).toNat
decreasing_by omega

theorem walkLeftAux_ok_inv {w : ListWalker1D T} {p q : Int}
    {el : ListWalkerElement T Int}
    (h : w.walkLeftAux p = .ok (q, el)) :
    0 ≤ q ∧ q < w.size ∧ w.is_ignored q = false ∧
      el.position = q ∧ el.is_ignored = false := by
  generalize hn : (p + 1).toNat = n
  induction n generalizing p with
  | zero =>
    rw [ListWalker1D.walkLeftAux, get_oob (by omega)] at h
    simp at h
  | succ n ih =>
    rw [ListWalker1D.walkLeftAux] at h
    split at h
    · simp at h
    · rename_i element hget
      obtain ⟨h0, h1, hpos, hig, _⟩ := get_ok_inv hget
      split at h
      · exact ih h (by omega)
      · rename_i hi
        simp only [Except.ok.injEq, Prod.mk.injEq] at h
        obtain ⟨rfl, rfl⟩ := h
        refine ⟨h0, h1, ?_, hpos, by simpa using hi⟩
        rw [← hig]
        simpa using hi

theorem walk_right_first_non_ignored {w : ListWalker1D T} {q : Int}
    (s : Bool) (hc0 : 0 ≤ w.cursor)
    (hq : w.cursor < q) (hq1 : q < w.size)
    (hqf : w.is_ignored q = false)
    (hrun : ∀ r, w.cursor < r → r < q → w.is_ignored r = true) :
    ∃ v, w.data[q.toNat]? = some v ∧
      w.walk_right true s = ({ w with cursor := q }, .ok ⟨q, v, false⟩) := by
  obtain ⟨v0, hv0, hget⟩ :=
    get_ok_of_bounds (w := w) (p := w.cursor + 1) (by omega) (by omega)
  obtain ⟨v, hv, haux⟩ := walkRightAux_finds (w := w) (p := w.cursor + 1)
    (q := q) (by omega) (by omega) hq1 hqf
    (fun r h1 h2 => hrun r (by omega) h2)
  refine ⟨v, hv, ?_⟩
  simp only [ListWalker1D.walk_right, hget, haux]
  simp

theorem walk_right_all_ignored {w : ListWalker1D T}
    (hc0 : 0 ≤ w.cursor) (hcs : w.cursor < w.size)
    (hrun : ∀ r, w.cursor < r → r < w.size → w.is_ignored r = true) :
    w.walk_right true false = (w, .error .outOfRange) ∧
      ∃ v, w.data[w.cursor.toNat]? = some v ∧
        w.walk_right true true = (w, .ok ⟨w.cursor, v, w.is_ignored w.cursor⟩) := by
  obtain ⟨vc, hvc, hgetc⟩ :=
    get_ok_of_bounds (w := w) (p := w.cursor) hc0 hcs
  by_cases hb : w.size ≤ w.cursor + 1
  · have hget : w.get (w.cursor + 1) = .error .outOfRange := get_oob (Or.inr hb)
    constructor
    · simp only [ListWalker1D.walk_right, hget]
      simp
    · refine ⟨vc, hvc, ?_⟩
      simp only [ListWalker1D.walk_right, hget, ListWalker1D.cursor_element, hgetc]
      simp
  · obtain ⟨v0, hv0, hget⟩ :=
      get_ok_of_bounds (w := w) (p := w.cursor + 1) (by omega) (by omega)
    have hig : w.is_ignored (w.cursor + 1) = true := hrun _ (by omega) (by omega)
    have haux : w.walkRightAux (w.cursor + 1) = .error .outOfRange :=
      walkRightAux_all_ignored (p := w.cursor + 1)
        (fun r h1 h2 => hrun r (by omega) h2)
    constructor
    · simp only [ListWalker1D.walk_right, hget, haux]
      simp
    · refine ⟨vc, hvc, ?_⟩
      simp only [ListWalker1D.walk_right, hget, haux,
        ListWalker1D.cursor_element, hgetc]
      simp

theorem walk_right_blocked {w : ListWalker1D T}
    (hc0 : 0 ≤ w.cursor) (hcs : w.cursor < w.size)
    (hn1 : w.cursor + 1 < w.size)
    (hig : w.is_ignored (w.cursor + 1) = true) :
    w.walk_right false false = (w, .error .cannotWalk) ∧
      ∃ v, w.data[w.cursor.toNat]? = some v ∧
        w.walk_right false true = (w, .ok ⟨w.cursor, v, w.is_ignored w.cursor⟩) := by
  obtain ⟨vc, hvc, hgetc⟩ := get_ok_of_bounds (w := w) (p := w.cursor) hc0 hcs
  obtain ⟨v0, hv0, hget⟩ :=
    get_ok_of_bounds (w := w) (p := w.cursor + 1) (by omega) hn1
  constructor
  · simp only [ListWalker1D.walk_right, hget]
    simp [hig]
  · refine ⟨vc, hvc, ?_⟩
    simp only [ListWalker1D.walk_right, hget,
      ListWalker1D.cursor_element, hgetc]
    simp [hig]

theorem walk_right_boundary_silent {w : ListWalker1D T} (jump : Bool)
    (hc0 : 0 ≤ w.cursor) (hcs : w.cursor < w.size)
    (hb : w.cursor + 1 < 0 ∨ w.size ≤ w.cursor + 1) :
    ∃ v, w.data[w.cursor.toNat]? = some v ∧
      w.walk_right jump true = (w, .ok ⟨w.cursor, v, w.is_ignored w.cursor⟩) := by
  obtain ⟨vc, hvc, hgetc⟩ := get_ok_of_bounds (w := w) (p := w.cursor) hc0 hcs
  have hget : w.get (w.cursor + 1) = .error .outOfRange := get_oob hb
  refine ⟨vc, hvc, ?_⟩
  simp only [ListWalker1D.walk_right, hget,
    ListWalker1D.cursor_element, hgetc]
  simp

theorem walk_right_result (w : ListWalker1D T) (jump silent : Bool) :
    (w.walk_right jump silent).1 = w ∨
      ((w.walk_right jump silent).1.data = w.data ∧
        0 ≤ (w.walk_right jump silent).1.cursor ∧
        (w.walk_right jump silent).1.cursor < w.size ∧
        w.is_ignored ((w.walk_right jump silent).1.cursor) = false) := by
  simp only [ListWalker1D.walk_right]
  split
  · split
    · exact Or.inl rfl
    · exact Or.inl rfl
  · split
    · split
      · exact Or.inl rfl
      · exact Or.inl rfl
    · rename_i element hget hnb
      split
      · rename_i pos el haux
        obtain ⟨h0, h1, hq, _, _⟩ := walkRightAux_ok_inv haux
        exact Or.inr ⟨rfl, h0, h1, hq⟩
      · split
        · exact Or.inl rfl
        · exact Or.inl rfl

theorem walk_left_first_non_ignored {w : ListWalker1D T} {q : Int}
    (s : Bool) (hcs : w.cursor < w.size)
    (hq0 : 0 ≤ q) (hq : q < w.cursor)
    (hqf : w.is_ignored q = false)
    (hrun : ∀ r, q < r → r < w.cursor → w.is_ignored r = true) :
    ∃ v, w.data[q.toNat]? = some v ∧
      w.walk_left true s = ({ w with cursor := q }, .ok ⟨q, v, false⟩) := by
  obtain ⟨v0, hv0, hget⟩ :=
    get_ok_of_bounds (w := w) (p := w.cursor - 1) (by omega) (by omega)
  obtain ⟨v, hv, haux⟩ := walkLeftAux_finds (w := w) (p := w.cursor - 1)
    (q := q) hq0 (by omega) (by omega) hqf
    (fun r h1 h2 => hrun r h1 (by omega))
  refine ⟨v, hv, ?_⟩
  simp only [ListWalker1D.walk_left, hget, haux]
  simp

theorem walk_left_all_ignored {w : ListWalker1D T}
    (hc0 : 0 ≤ w.cursor) (hcs : w.cursor < w.size)
    (hrun : ∀ r, 0 ≤ r → r < w.cursor → w.is_ignored r = true) :
    w.walk_left true false = (w, .error .outOfRange) ∧
      ∃ v, w.data[w.cursor.toNat]? = some v ∧
        w.walk_left true true = (w, .ok ⟨w.cursor, v, w.is_ignored w.cursor⟩) := by
  obtain ⟨vc, hvc, hgetc⟩ := get_ok_of_bounds (w := w) (p := w.cursor) hc0 hcs
  by_cases hb : w.cursor - 1 < 0
  · have hget : w.get (w.cursor - 1) = .error .outOfRange := get_oob (Or.inl hb)
    constructor
    · simp only [ListWalker1D.walk_left, hget]
      simp
    · refine ⟨vc, hvc, ?_⟩
      simp only [ListWalker1D.walk_left, hget, ListWalker1D.cursor_element, hgetc]
      simp
  · obtain ⟨v0, hv0, hget⟩ :=
      get_ok_of_bounds (w := w) (p := w.cursor - 1) (by omega) (by omega)
    have hig : w.is_ignored (w.cursor - 1) = true := hrun _ (by omega) (by omega)
    have haux : w.walkLeftAux (w.cursor - 1) = .error .outOfRange :=
      walkLeftAux_all_ignored (p := w.cursor - 1)
        (fun r h1 h2 => hrun r h1 (by omega))
    constructor
    · simp only [ListWalker1D.walk_left, hget, haux]
      simp
    · refine ⟨vc, hvc, ?_⟩
      simp only [ListWalker1D.walk_left, hget, haux,
        ListWalker1D.cursor_element, hgetc]
      simp

theorem walk_left_blocked {w : ListWalker1D T}
    (hc0 : 0 ≤ w.cursor) (hcs : w.cursor < w.size)
    (hn1 : 0 ≤ w.cursor - 1)
    (hig : w.is_ignored (w.cursor - 1) = true) :
    w.walk_left false false = (w, .error .cannotWalk) ∧
      ∃ v, w.data[w.cursor.toNat]? = some v ∧
        w.walk_left false true = (w, .ok ⟨w.cursor, v, w.is_ignored w.cursor⟩) := by
  obtain ⟨vc, hvc, hgetc⟩ := get_ok_of_bounds (w := w) (p := w.cursor) hc0 hcs
  obtain ⟨v0, hv0, hget⟩ :=
    get_ok_of_bounds (w := w) (p := w.cursor - 1) hn1 (by omega)
  constructor
  · simp only [ListWalker1D.walk_left, hget]
    simp [hig]
  · refine ⟨vc, hvc, ?_⟩
    simp only [ListWalker1D.walk_left, hget,
      ListWalker1D.cursor_element, hgetc]
    simp [hig]

theorem walk_left_boundary_silent {w : ListWalker1D T} (jump : Bool)
    (hc0 : 0 ≤ w.cursor) (hcs : w.cursor < w.size)
    (hb : w.cursor - 1 < 0 ∨ w.size ≤ w.cursor - 1) :
    ∃ v, w.data[w.cursor.toNat]? = some v ∧
      w.walk_left jump true = (w, .ok ⟨w.cursor, v, w.is_ignored w.cursor⟩) := by
  obtain ⟨vc, hvc, hgetc⟩ := get_ok_of_bounds (w := w) (p := w.cursor) hc0 hcs
  have hget : w.get (w.cursor - 1) = .error .outOfRange := get_oob hb
  refine ⟨vc, hvc, ?_⟩
  simp only [ListWalker1D.walk_left, hget,
    ListWalker1D.cursor_element, hgetc]
  simp

theorem walk_left_result (w : ListWalker1D T) (jump silent : Bool) :
    (w.walk_left jump silent).1 = w ∨
      ((w.walk_left jump silent).1.data = w.data ∧
        0 ≤ (w.walk_left jump silent).1.cursor ∧
        (w.walk_left jump silent).1.cursor < w.size ∧
        w.is_ignored ((w.walk_left jump silent).1.cursor) = false) := by
  simp only [ListWalker1D.walk_left]
  split
  · split
    · exact Or.inl rfl
    · exact Or.inl rfl
  · split
    · split
      · exact Or.inl rfl
      · exact Or.inl rfl
    · rename_i element hget hnb
      split
      · rename_i pos el haux
        obtain ⟨h0, h1, hq, _, _⟩ := walkLeftAux_ok_inv haux
        exact Or.inr ⟨rfl, h0, h1, hq⟩
      · split
        · exact Or.inl rfl
        · exact Or.inl rfl

end ListWalker1D

/-! ## Properties of the 2D walker -/

namespace ListWalker2D

theorem size_fst (w : ListWalker2D T) :
    (w.size).1 = (w.data.length : Int) := rfl

theorem get2_oob {w : ListWalker2D T} {p : Int × Int}
    (h : p.1 < 0 ∨ (w.size).1 ≤ p.1 ∨ p.2 < 0 ∨ (w.size).2 ≤ p.2) :
    w.get p = .error .outOfRange := by
  simp only [ListWalker2D.get]
  by_cases h1 : p.1 < 0 ∨ (w.size).1 ≤ p.1
  · rw [if_pos h1]
  · rw [if_neg h1, if_pos (by omega)]

theorem get2_error_inv {w : ListWalker2D T} {p : Int × Int} {e : WalkError}
    (h : w.get p = .error e) : e = .outOfRange := by
  simp only [ListWalker2D.get] at h
  split at h
  · simp only [Except.error.injEq] at h
    exact h.symm
  · split at h
    · simp only [Except.error.injEq] at h
      exact h.symm
    · split at h
      · simp only [Except.error.injEq] at h
        exact h.symm
      · split at h
        · simp only [Except.error.injEq] at h
          exact h.symm
        · simp at h

theorem get2_ok_of_bounds {w : ListWalker2D T} (hrect : w.Rectangular)
    {a b : Int} (ha0 : 0 ≤ a) (ha1 : a < (w.size).1)
    (hb0 : 0 ≤ b) (hb1 : b < (w.size).2) :
    ∃ row v, w.data[a.toNat]? = some row ∧ row[b.toNat]? = some v ∧
      w.get (a, b) = .ok ⟨(a, b), v, w.is_ignored (a, b)⟩ := by
  have hr : a.toNat < w.data.length := by
    rw [size_fst] at ha1
    omega
  have hrow : w.data[a.toNat]? = some (w.data[a.toNat]) :=
    List.getElem?_eq_getElem hr
  have hlen : ((w.data[a.toNat]).length : Int) = (w.size).2 :=
    hrect _ (List.getElem_mem hr)
  have hc : b.toNat < (w.data[a.toNat]).length := by omega
  have hv : (w.data[a.toNat])[b.toNat]? = some ((w.data[a.toNat])[b.toNat]) :=
    List.getElem?_eq_getElem hc
  refine ⟨_, _, hrow, hv, ?_⟩
  simp only [ListWalker2D.get]
  rw [if_neg (by omega), if_neg (by omega), hrow]
  simp [hv]

theorem get2_ok_inv {w : ListWalker2D T} {a b : Int}
    {el : ListWalkerElement T (Int × Int)} (h : w.get (a, b) = .ok el) :
    0 ≤ a ∧ a < (w.size).1 ∧ 0 ≤ b ∧ b < (w.size).2 ∧
      el.position = (a, b) ∧ el.is_ignored = w.is_ignored (a, b) ∧
      ∃ row, w.data[a.toNat]? = some row ∧ row[b.toNat]? = some el.value := by
  simp only [ListWalker2D.get] at h
  split at h
  · simp at h
  · rename_i hc1
    split at h
    · simp at h
    · rename_i hc2
      split at h
      · simp at h
      · rename_i row hrow
        split at h
        · simp at h
        · rename_i v hv
          simp only [Except.ok.injEq] at h
          subst h
          refine ⟨?_, ?_, ?_, ?_, rfl, rfl, row, hrow, hv⟩
          all_goals omega

theorem walkUpAux_finds {w : ListWalker2D T} (hrect : w.Rectangular)
    {a b q : Int}
    (hq0 : 0 ≤ q) (hqa : q ≤ a) (ha1 : a < (w.size).1)
    (hb0 : 0 ≤ b) (hb1 : b < (w.size).2)
    (hqf : w.is_ignored (q, b) = false)
    (hrun : ∀ r, q < r → r ≤ a → w.is_ignored (r, b) = true) :
    ∃ row v, w.data[q.toNat]? = some row ∧ row[b.toNat]? = some v ∧
      w.walkUpAux (a, b) = .ok (q, b, ⟨(q, b), v, false⟩) := by
  generalize hn : (a - q).toNat = n
  induction n generalizing a with
  | zero =>
    have haq : a = q := by omega
    subst haq
    obtain ⟨row, v, hrow, hv, hget⟩ := get2_ok_of_bounds hrect (by omega) ha1 hb0 hb1
    refine ⟨row, v, hrow, hv, ?_⟩
    rw [ListWalker2D.walkUpAux, hget]
    simp [hqf]
  | succ n ih =>
    have hlt : q < a := by omega
    have hig : w.is_ignored (a, b) = true := hrun a hlt le_rfl
    obtain ⟨row0, v0, _, _, hget⟩ :=
      get2_ok_of_bounds hrect (a := a) (b := b) (by omega) ha1 hb0 hb1
    obtain ⟨row, v, hrow, hv, iha⟩ := ih (a := a - 1) (by omega) (by omega)
      (fun r hr1 hr2 => hrun r hr1 (by omega)) (by omega)
    refine ⟨row, v, hrow, hv, ?_⟩
    rw [ListWalker2D.walkUpAux, hget]
    simp only [hig, if_true]
    exact iha

theorem walkUpAux_all_ignored {w : ListWalker2D T} {a b : Int}
    (hrun : ∀ r, 0 ≤ r → r ≤ a → w.is_ignored (r, b) = true) :
    w.walkUpAux (a, b) = .error .outOfRange := by
  generalize hn : (a + 1).toNat = n
  induction n generalizing a with
  | zero =>
    rw [ListWalker2D.walkUpAux, get2_oob (Or.inl (by omega : a < 0))]
  | succ n ih =>
    cases hget : w.get (a, b) with
    | error e =>
      obtain rfl : e = .outOfRange := get2_error_inv hget
      rw [ListWalker2D.walkUpAux, hget]
    | ok element =>
      obtain ⟨ha0, ha1, hb0, hb1, hpos, hig, _⟩ := get2_ok_inv hget
      have higt : element.is_ignored = true := by
        rw [hig]
        exact hrun a ha0 le_rfl
      rw [ListWalker2D.walkUpAux, hget]
      simp only [higt, if_true]
      exact ih (a := a - 1) (fun r hr1 hr2 => hrun r hr1 (by omega)) (by omega)

theorem walkUpAux_ok_inv {w : ListWalker2D T} {a b q c : Int}
    {el : ListWalkerElement T (Int × Int)}
    (h : w.walkUpAux (a, b) = .ok (q, c, el)) :
    c = b ∧ 0 ≤ q ∧ q < (w.size).1 ∧ 0 ≤ c ∧ c < (w.size).2 ∧
      w.is_ignored (q, c) = false ∧ el.position = (q, c) ∧
      el.is_ignored = false := by
  generalize hn : (a + 1).toNat = n
  induction n generalizing a with
  | zero =>
    rw [ListWalker2D.walkUpAux, get2_oob (Or.inl (by omega : a < 0))] at h
    simp at h
  | succ n ih =>
    rw [ListWalker2D.walkUpAux] at h
    split at h
    · simp at h
    · rename_i element hget
      obtain ⟨ha0, ha1, hb0, hb1, hpos, hig, _⟩ := get2_ok_inv hget
      split at h
      · exact ih h (by omega)
      · rename_i hi
        simp only [Except.ok.injEq, Prod.mk.injEq] at h
        obtain ⟨rfl, rfl, rfl⟩ := h
        refine ⟨rfl, ha0, ha1, hb0, hb1, ?_, hpos, by simpa using hi⟩
        rw [← hig]
        simpa using hi

theorem walkDownAux_finds {w : ListWalker2D T} (hrect : w.Rectangular)
    {a b q : Int}
    (ha0 : 0 ≤ a) (hqa : a ≤ q) (hq1 : q < (w.size).1)
    (hb0 : 0 ≤ b) (hb1 : b < (w.size).2)
    (hqf : w.is_ignored (q, b) = false)
    (hrun : ∀ r, a ≤ r → r < q → w.is_ignored (r, b) = true) :
    ∃ row v, w.data[q.toNat]? = some row ∧ row[b.toNat]? = some v ∧
      w.walkDownAux (a, b) = .ok (q, b, ⟨(q, b), v, false⟩) := by
  generalize hn : (q - a).toNat = n
  induction n generalizing a with
  | zero =>
    have haq : a = q := by omega
    subst haq
    obtain ⟨row, v, hrow, hv, hget⟩ := get2_ok_of_bounds hrect ha0 hq1 hb0 hb1
    refine ⟨row, v, hrow, hv, ?_⟩
    rw [ListWalker2D.walkDownAux, hget]
    simp [hqf]
  | succ n ih =>
    have hlt : a < q := by omega
    have hig : w.is_ignored (a, b) = true := hrun a le_rfl hlt
    obtain ⟨row0, v0, _, _, hget⟩ :=
      get2_ok_of_bounds hrect (a := a) (b := b) ha0 (by omega) hb0 hb1
    obtain ⟨row, v, hrow, hv, iha⟩ := ih (a := a + 1) (by omega) (by omega)
      (fun r hr1 hr2 => hrun r (by omega) hr2) (by omega)
    refine ⟨row, v, hrow, hv, ?_⟩
    rw [ListWalker2D.walkDownAux, hget]
    simp only [hig, if_true]
    exact iha

theorem walkDownAux_all_ignored {w : ListWalker2D T} {a b : Int}
    (hrun : ∀ r, a ≤ r → r < (w.size).1 → w.is_ignored (r, b) = true) :
    w.walkDownAux (a, b) = .error .outOfRange := by
  generalize hn : ((w.size).1 - a).toNat = n
  induction n generalizing a with
  | zero =>
    rw [ListWalker2D.walkDownAux,
      get2_oob (Or.inr (Or.inl (by omega : (w.size).1 ≤ a)))]
  | succ n ih =>
    cases hget : w.get (a, b) with
    | error e =>
      obtain rfl : e = .outOfRange := get2_error_inv hget
      rw [ListWalker2D.walkDownAux, hget]
    | ok element =>
      obtain ⟨ha0, ha1, hb0, hb1, hpos, hig, _⟩ := get2_ok_inv hget
      have higt : element.is_ignored = true := by
        rw [hig]
        exact hrun a le_rfl ha1
      rw [ListWalker2D.walkDownAux, hget]
      simp only [higt, if_true]
      exact ih (a := a + 1) (fun r hr1 hr2 => hrun r (by omega) hr2) (by omega)

theorem walkDownAux_ok_inv {w : ListWalker2D T} {a b q c : Int}
    {el : ListWalkerElement T (Int × Int)}
    (h : w.walkDownAux (a, b) = .ok (q, c, el)) :
    c = b ∧ 0 ≤ q ∧ q < (w.size).1 ∧ 0 ≤ c ∧ c < (w.size).2 ∧
      w.is_ignored (q, c) = false ∧ el.position = (q, c) ∧
      el.is_ignored = false := by
  generalize hn : ((w.size).1 - a).toNat = n
  induction n generalizing a with
  | zero =>
    rw [ListWalker2D.walkDownAux,
      get2_oob (Or.inr (Or.inl (by omega : (w.size).1 ≤ a)))] at h
    simp at h
  | succ n ih =>
    rw [ListWalker2D.walkDownAux] at h
    split at h
    · simp at h
    · rename_i element hget
      obtain ⟨ha0, ha1, hb0, hb1, hpos, hig, _⟩ := get2_ok_inv hget
      split at h
      · exact ih h (by omega)
      · rename_i hi
        simp only [Except.ok.injEq, Prod.mk.injEq] at h
        obtain ⟨rfl, rfl, rfl⟩ := h
        refine ⟨rfl, ha0, ha1, hb0, hb1, ?_, hpos, by simpa using hi⟩
        rw [← hig]
        simpa using hi

theorem walkRightAux2_finds {w : ListWalker2D T} (hrect : w.Rectangular)
    {a b q : Int}
    (ha0 : 0 ≤ a) (ha1 : a < (w.size).1)
    (hb0 : 0 ≤ b) (hqb : b ≤ q) (hq1 : q < (w.size).2)
    (hqf : w.is_ignored (a, q) = false)
    (hrun : ∀ r, b ≤ r → r < q → w.is_ignored (a, r) = true) :
    ∃ row v, w.data[a.toNat]? = some row ∧ row[q.toNat]? = some v ∧
      w.walkRightAux (a, b) = .ok (a, q, ⟨(a, q), v, false⟩) := by
  generalize hn : (q - b).toNat = n
  induction n generalizing b with
  | zero =>
    have hbq : b = q := by omega
    subst hbq
    obtain ⟨row, v, hrow, hv, hget⟩ := get2_ok_of_bounds hrect ha0 ha1 hb0 hq1
    refine ⟨row, v, hrow, hv, ?_⟩
    rw [ListWalker2D.walkRightAux, hget]
    simp [hqf]
  | succ n ih =>
    have hlt : b < q := by omega
    have hig : w.is_ignored (a, b) = true := hrun b le_rfl hlt
    obtain ⟨row0, v0, _, _, hget⟩ :=
      get2_ok_of_bounds hrect (a := a) (b := b) ha0 ha1 hb0 (by omega)
    obtain ⟨row, v, hrow, hv, iha⟩ := ih (b := b + 1) (by omega) (by omega)
      (fun r hr1 hr2 => hrun r (by omega) hr2) (by omega)
    refine ⟨row, v, hrow, hv, ?_⟩
    rw [ListWalker2D.walkRightAux, hget]
    simp only [hig, if_true]
    exact iha

theorem walkRightAux2_all_ignored {w : ListWalker2D T} {a b : Int}
    (hrun : ∀ r, b ≤ r → r < (w.size).2 → w.is_ignored (a, r) = true) :
    w.walkRightAux (a, b) = .error .outOfRange := by
  generalize hn : ((w.size).2 - b).toNat = n
  induction n generalizing b with
  | zero =>
    rw [ListWalker2D.walkRightAux,
      get2_oob (Or.inr (Or.inr (Or.inr (by omega : (w.size).2 ≤ b))))]
  | succ n ih =>
    cases hget : w.get (a, b) with
    | error e =>
      obtain rfl : e = .outOfRange := get2_error_inv hget
      rw [ListWalker2D.walkRightAux, hget]
    | ok element =>
      obtain ⟨ha0, ha1, hb0, hb1, hpos, hig, _⟩ := get2_ok_inv hget
      have higt : element.is_ignored = true := by
        rw [hig]
        exact hrun b le_rfl hb1
      rw [ListWalker2D.walkRightAux, hget]
      simp only [higt, if_true]
      exact ih (b := b + 1) (fun r hr1 hr2 => hrun r (by omega) hr2) (by omega)

theorem walkRightAux2_ok_inv {w : ListWalker2D T} {a b q c : Int}
    {el : ListWalkerElement T (Int × Int)}
    (h : w.walkRightAux (a, b) = .ok (q, c, el)) :
    q = a ∧ 0 ≤ q ∧ q < (w.size).1 ∧ 0 ≤ c ∧ c < (w.size).2 ∧
      w.is_ignored (q, c) = false ∧ el.position = (q, c) ∧
      el.is_ignored = false := by
  generalize hn : ((w.size).2 - b).toNat = n
  induction n generalizing b with
  | zero =>
    rw [ListWalker2D.walkRightAux,
      get2_oob (Or.inr (Or.inr (Or.inr (by omega : (w.size).2 ≤ b))))] at h
    simp at h
  | succ n ih =>
    rw [ListWalker2D.walkRightAux] at h
    split at h
    · simp at h
    · rename_i element hget
      obtain ⟨ha0, ha1, hb0, hb1, hpos, hig, _⟩ := get2_ok_inv hget
      split at h
      · exact ih h (by omega)
      · rename_i hi
        simp only [Except.ok.injEq, Prod.mk.injEq] at h
        obtain ⟨rfl, rfl, rfl⟩ := h
        refine ⟨rfl, ha0, ha1, hb0, hb1, ?_, hpos, by simpa using hi⟩
        rw [← hig]
        simpa using hi

theorem walkLeftAux2_finds {w : ListWalker2D T} (hrect : w.Rectangular)
    {a b q : Int}
    (ha0 : 0 ≤ a) (ha1 : a < (w.size).1)
    (hq0 : 0 ≤ q) (hqb : q ≤ b) (hb1 : b < (w.size).2)
    (hqf : w.is_ignored (a, q) = false)
    (hrun : ∀ r, q < r → r ≤ b → w.is_ignored (a, r) = true) :
    ∃ row v, w.data[a.toNat]? = some row ∧ row[q.toNat]? = some v ∧
      w.walkLeftAux (a, b) = .ok (a, q, ⟨(a, q), v, false⟩) := by
  generalize hn : (b - q).toNat = n
  induction n generalizing b with
  | zero =>
    have hbq : b = q := by omega
    subst hbq
    obtain ⟨row, v, hrow, hv, hget⟩ := get2_ok_of_bounds hrect ha0 ha1 hq0 hb1
    refine ⟨row, v, hrow, hv, ?_⟩
    rw [ListWalker2D.walkLeftAux, hget]
    simp [hqf]
  | succ n ih =>
    have hlt : q < b := by omega
    have hig : w.is_ignored (a, b) = true := hrun b hlt le_rfl
    obtain ⟨row0, v0, _, _, hget⟩ :=
      get2_ok_of_bounds hrect (a := a) (b := b) ha0 ha1 (by omega) hb1
    obtain ⟨row, v, hrow, hv, iha⟩ := ih (b := b - 1) (by omega) (by omega)
      (fun r hr1 hr2 => hrun r hr1 (by omega)) (by omega)
    refine ⟨row, v, hrow, hv, ?_⟩
    rw [ListWalker2D.walkLeftAux, hget]
    simp only [hig, if_true]
    exact iha

theorem walkLeftAux2_all_ignored {w : ListWalker2D T} {a b : Int}
    (hrun : ∀ r, 0 ≤ r → r ≤ b → w.is_ignored (a, r) = true) :
    w.walkLeftAux (a, b) = .error .outOfRange := by
  generalize hn : (b + 1).toNat = n
  induction n generalizing b with
  | zero =>
    rw [ListWalker2D.walkLeftAux,
      get2_oob (Or.inr (Or.inr (Or.inl (by omega : b < 0))))]
  | succ n ih =>
    cases hget : w.get (a, b) with
    | error e =>
      obtain rfl : e = .outOfRange := get2_error_inv hget
      rw [ListWalker2D.walkLeftAux, hget]
    | ok element =>
      obtain ⟨ha0, ha1, hb0, hb1, hpos, hig, _⟩ := get2_ok_inv hget
      have higt : element.is_ignored = true := by
        rw [hig]
        exact hrun b hb0 le_rfl
      rw [ListWalker2D.walkLeftAux, hget]
      simp only [higt, if_true]
      exact ih (b := b - 1) (fun r hr1 hr2 => hrun r hr1 (by omega)) (by omega)

theorem walkLeftAux2_ok_inv {w : ListWalker2D T} {a b q c : Int}
    {el : ListWalkerElement T (Int × Int)}
    (h : w.walkLeftAux (a, b) = .ok (q, c, el)) :
    q = a ∧ 0 ≤ q ∧ q < (w.size).1 ∧ 0 ≤ c ∧ c < (w.size).2 ∧
      w.is_ignored (q, c) = false ∧ el.position = (q, c) ∧
      el.is_ignored = false := by
  generalize hn : (b + 1).toNat = n
  induction n generalizing b with
  | zero =>
    rw [ListWalker2D.walkLeftAux,
      get2_oob (Or.inr (Or.inr (Or.inl (by omega : b < 0))))] at h
    simp at h
  | succ n ih =>
    rw [ListWalker2D.walkLeftAux] at h
    split at h
    · simp at h
    · rename_i element hget
      obtain ⟨ha0, ha1, hb0, hb1, hpos, hig, _⟩ := get2_ok_inv hget
      split at h
      · exact ih h (by omega)
      · rename_i hi
        simp only [Except.ok.injEq, Prod.mk.injEq] at h
        obtain ⟨rfl, rfl, rfl⟩ := h
        refine ⟨rfl, ha0, ha1, hb0, hb1, ?_, hpos, by simpa using hi⟩
        rw [← hig]
        simpa using hi

theorem walk_up_first_non_ignored {w : ListWalker2D T} {q : Int}
    (hrect : w.Rectangular) (s : Bool)
    (hc11 : w.cursor.1 < (w.size).1)
    (hc20 : 0 ≤ w.cursor.2) (hc21 : w.cursor.2 < (w.size).2)
    (hq0 : 0 ≤ q) (hq : q < w.cursor.1)
    (hqf : w.is_ignored (q, w.cursor.2) = false)
    (hrun : ∀ r, q < r → r < w.cursor.1 → w.is_ignored (r, w.cursor.2) = true) :
    ∃ row v, w.data[q.toNat]? = some row ∧ row[w.cursor.2.toNat]? = some v ∧
      w.walk_up true s =
        ({ w with cursor := (q, w.cursor.2) }, .ok ⟨(q, w.cursor.2), v, false⟩) := by
  obtain ⟨row0, v0, _, _, hget⟩ := get2_ok_of_bounds hrect
    (a := w.cursor.1 - 1) (b := w.cursor.2) (by omega) (by omega) hc20 hc21
  obtain ⟨row, v, hrow, hv, haux⟩ := walkUpAux_finds hrect
    (a := w.cursor.1 - 1) (b := w.cursor.2) (q := q) hq0 (by omega) (by omega)
    hc20 hc21 hqf (fun r h1 h2 => hrun r h1 (by omega))
  refine ⟨row, v, hrow, hv, ?_⟩
  simp only [ListWalker2D.walk_up, hget, haux]
  simp

theorem walk_up_all_ignored {w : ListWalker2D T} (hrect : w.Rectangular)
    (hc10 : 0 ≤ w.cursor.1) (hc11 : w.cursor.1 < (w.size).1)
    (hc20 : 0 ≤ w.cursor.2) (hc21 : w.cursor.2 < (w.size).2)
    (hrun : ∀ r, 0 ≤ r → r < w.cursor.1 → w.is_ignored (r, w.cursor.2) = true) :
    w.walk_up true false = (w, .error .outOfRange) ∧
      ∃ row v, w.data[w.cursor.1.toNat]? = some row ∧
        row[w.cursor.2.toNat]? = some v ∧
        w.walk_up true true = (w, .ok ⟨w.cursor, v, w.is_ignored w.cursor⟩) := by
  obtain ⟨rowc, vc, hrowc, hvc, hgetc⟩ := get2_ok_of_bounds hrect
    (a := w.cursor.1) (b := w.cursor.2) hc10 hc11 hc20 hc21
  have hgetc2 : w.get w.cursor = .ok ⟨w.cursor, vc, w.is_ignored w.cursor⟩ := hgetc
  by_cases hb : w.cursor.1 - 1 < 0
  · have hget : w.get (w.cursor.1 - 1, w.cursor.2) = .error .outOfRange :=
      get2_oob (Or.inl hb)
    constructor
    · simp only [ListWalker2D.walk_up, hget]
      simp
    · refine ⟨rowc, vc, hrowc, hvc, ?_⟩
      simp only [ListWalker2D.walk_up, hget, ListWalker2D.cursor_element, hgetc2]
      simp
  · obtain ⟨row0, v0, _, _, hget⟩ := get2_ok_of_bounds hrect
      (a := w.cursor.1 - 1) (b := w.cursor.2) (by omega) (by omega) hc20 hc21
    have haux : w.walkUpAux (w.cursor.1 - 1, w.cursor.2) = .error .outOfRange :=
      walkUpAux_all_ignored (a := w.cursor.1 - 1) (b := w.cursor.2)
        (fun r h1 h2 => hrun r h1 (by omega))
    constructor
    · simp only [ListWalker2D.walk_up, hget, haux]
      simp
    · refine ⟨rowc, vc, hrowc, hvc, ?_⟩
      simp only [ListWalker2D.walk_up, hget, haux,
        ListWalker2D.cursor_element, hgetc2]
      simp

theorem walk_up_blocked {w : ListWalker2D T} (hrect : w.Rectangular)
    (hc11 : w.cursor.1 < (w.size).1)
    (hc20 : 0 ≤ w.cursor.2) (hc21 : w.cursor.2 < (w.size).2)
    (hn1 : 0 ≤ w.cursor.1 - 1)
    (hig : w.is_ignored (w.cursor.1 - 1, w.cursor.2) = true) :
    w.walk_up false false = (w, .error .cannotWalk) ∧
      ∃ row v, w.data[w.cursor.1.toNat]? = some row ∧
        row[w.cursor.2.toNat]? = some v ∧
        w.walk_up false true = (w, .ok ⟨w.cursor, v, w.is_ignored w.cursor⟩) := by
  obtain ⟨rowc, vc, hrowc, hvc, hgetc⟩ := get2_ok_of_bounds hrect
    (a := w.cursor.1) (b := w.cursor.2) (by omega) hc11 hc20 hc21
  have hgetc2 : w.get w.cursor = .ok ⟨w.cursor, vc, w.is_ignored w.cursor⟩ := hgetc
  obtain ⟨row0, v0, _, _, hget⟩ := get2_ok_of_bounds hrect
    (a := w.cursor.1 - 1) (b := w.cursor.2) hn1 (by omega) hc20 hc21
  constructor
  · simp only [ListWalker2D.walk_up, hget]
    simp [hig]
  · refine ⟨rowc, vc, hrowc, hvc, ?_⟩
    simp only [ListWalker2D.walk_up, hget, ListWalker2D.cursor_element, hgetc2]
    simp [hig]

theorem walk_up_boundary_silent {w : ListWalker2D T} (hrect : w.Rectangular)
    (jump : Bool)
    (hc10 : 0 ≤ w.cursor.1) (hc11 : w.cursor.1 < (w.size).1)
    (hc20 : 0 ≤ w.cursor.2) (hc21 : w.cursor.2 < (w.size).2)
    (hb : w.cursor.1 - 1 < 0 ∨ (w.size).1 ≤ w.cursor.1 - 1) :
    ∃ row v, w.data[w.cursor.1.toNat]? = some row ∧
      row[w.cursor.2.toNat]? = some v ∧
      w.walk_up jump true = (w, .ok ⟨w.cursor, v, w.is_ignored w.cursor⟩) := by
  obtain ⟨rowc, vc, hrowc, hvc, hgetc⟩ := get2_ok_of_bounds hrect
    (a := w.cursor.1) (b := w.cursor.2) hc10 hc11 hc20 hc21
  have hgetc2 : w.get w.cursor = .ok ⟨w.cursor, vc, w.is_ignored w.cursor⟩ := hgetc
  have hget : w.get (w.cursor.1 - 1, w.cursor.2) = .error .outOfRange :=
    get2_oob (hb.elim (fun h => Or.inl h) (fun h => Or.inr (Or.inl h)))
  refine ⟨rowc, vc, hrowc, hvc, ?_⟩
  simp only [ListWalker2D.walk_up, hget, ListWalker2D.cursor_element, hgetc2]
  simp

theorem walk_up_result (w : ListWalker2D T) (jump silent : Bool) :
    (w.walk_up jump silent).1 = w ∨
      ((w.walk_up jump silent).1.data = w.data ∧
        0 ≤ (w.walk_up jump silent).1.cursor.1 ∧
        (w.walk_up jump silent).1.cursor.1 < (w.size).1 ∧
        0 ≤ (w.walk_up jump silent).1.cursor.2 ∧
        (w.walk_up jump silent).1.cursor.2 < (w.size).2 ∧
        w.is_ignored ((w.walk_up jump silent).1.cursor) = false) := by
  simp only [ListWalker2D.walk_up]
  split
  · split
    · exact Or.inl rfl
    · exact Or.inl rfl
  · split
    · split
      · exact Or.inl rfl
      · exact Or.inl rfl
    · rename_i element hget hnb
      split
      · rename_i r c el haux
        obtain ⟨hcb, h0, h1, h2, h3, hq, _, _⟩ := walkUpAux_ok_inv haux
        exact Or.inr ⟨rfl, h0, h1, h2, h3, hq⟩
      · split
        · exact Or.inl rfl
        · exact Or.inl rfl

theorem walk_up_preserves_col (w : ListWalker2D T) (jump silent : Bool) :
    ((w.walk_up jump silent).1).cursor.2 = w.cursor.2 := by
  simp only [ListWalker2D.walk_up]
  split
  · split
    · rfl
    · rfl
  · split
    · split
      · rfl
      · rfl
    · rename_i element hget hnb
      split
      · rename_i r c el haux
        exact (walkUpAux_ok_inv haux).1
      · split
        · rfl
        · rfl

theorem walk_down_first_non_ignored {w : ListWalker2D T} {q : Int}
    (hrect : w.Rectangular) (s : Bool)
    (hc10 : 0 ≤ w.cursor.1)
    (hc20 : 0 ≤ w.cursor.2) (hc21 : w.cursor.2 < (w.size).2)
    (hq : w.cursor.1 < q) (hq1 : q < (w.size).1)
    (hqf : w.is_ignored (q, w.cursor.2) = false)
    (hrun : ∀ r, w.cursor.1 < r → r < q → w.is_ignored (r, w.cursor.2) = true) :
    ∃ row v, w.data[q.toNat]? = some row ∧ row[w.cursor.2.toNat]? = some v ∧
      w.walk_down true s =
        ({ w with cursor := (q, w.cursor.2) }, .ok ⟨(q, w.cursor.2), v, false⟩) := by
  obtain ⟨row0, v0, _, _, hget⟩ := get2_ok_of_bounds hrect
    (a := w.cursor.1 + 1) (b := w.cursor.2) (by omega) (by omega) hc20 hc21
  obtain ⟨row, v, hrow, hv, haux⟩ := walkDownAux_finds hrect
    (a := w.cursor.1 + 1) (b := w.cursor.2) (q := q) (by omega) (by omega) hq1
    hc20 hc21 hqf (fun r h1 h2 => hrun r (by omega) h2)
  refine ⟨row, v, hrow, hv, ?_⟩
  simp only [ListWalker2D.walk_down, hget, haux]
  simp

theorem walk_down_all_ignored {w : ListWalker2D T} (hrect : w.Rectangular)
    (hc10 : 0 ≤ w.cursor.1) (hc11 : w.cursor.1 < (w.size).1)
    (hc20 : 0 ≤ w.cursor.2) (hc21 : w.cursor.2 < (w.size).2)
    (hrun : ∀ r, w.cursor.1 < r → r < (w.size).1 →
      w.is_ignored (r, w.cursor.2) = true) :
    w.walk_down true false = (w, .error .outOfRange) ∧
      ∃ row v, w.data[w.cursor.1.toNat]? = some row ∧
        row[w.cursor.2.toNat]? = some v ∧
        w.walk_down true true = (w, .ok ⟨w.cursor, v, w.is_ignored w.cursor⟩) := by
  obtain ⟨rowc, vc, hrowc, hvc, hgetc⟩ := get2_ok_of_bounds hrect
    (a := w.cursor.1) (b := w.cursor.2) hc10 hc11 hc20 hc21
  have hgetc2 : w.get w.cursor = .ok ⟨w.cursor, vc, w.is_ignored w.cursor⟩ := hgetc
  by_cases hb : (w.size).1 ≤ w.cursor.1 + 1
  · have hget : w.get (w.cursor.1 + 1, w.cursor.2) = .error .outOfRange :=
      get2_oob (Or.inr (Or.inl hb))
    constructor
    · simp only [ListWalker2D.walk_down, hget]
      simp
    · refine ⟨rowc, vc, hrowc, hvc, ?_⟩
      simp only [ListWalker2D.walk_down, hget, ListWalker2D.cursor_element, hgetc2]
      simp
  · obtain ⟨row0, v0, _, _, hget⟩ := get2_ok_of_bounds hrect
      (a := w.cursor.1 + 1) (b := w.cursor.2) (by omega) (by omega) hc20 hc21
    have haux : w.walkDownAux (w.cursor.1 + 1, w.cursor.2) = .error .outOfRange :=
      walkDownAux_all_ignored (a := w.cursor.1 + 1) (b := w.cursor.2)
        (fun r h1 h2 => hrun r (by omega) h2)
    constructor
    · simp only [ListWalker2D.walk_down, hget, haux]
      simp
    · refine ⟨rowc, vc, hrowc, hvc, ?_⟩
      simp only [ListWalker2D.walk_down, hget, haux,
        ListWalker2D.cursor_element, hgetc2]
      simp

theorem walk_down_blocked {w : ListWalker2D T} (hrect : w.Rectangular)
    (hc10 : 0 ≤ w.cursor.1)
    (hc20 : 0 ≤ w.cursor.2) (hc21 : w.cursor.2 < (w.size).2)
    (hn1 : w.cursor.1 + 1 < (w.size).1)
    (hig : w.is_ignored (w.cursor.1 + 1, w.cursor.2) = true) :
    w.walk_down false false = (w, .error .cannotWalk) ∧
      ∃ row v, w.data[w.cursor.1.toNat]? = some row ∧
        row[w.cursor.2.toNat]? = some v ∧
        w.walk_down false true = (w, .ok ⟨w.cursor, v, w.is_ignored w.cursor⟩) := by
  obtain ⟨rowc, vc, hrowc, hvc, hgetc⟩ := get2_ok_of_bounds hrect
    (a := w.cursor.1) (b := w.cursor.2) hc10 (by omega) hc20 hc21
  have hgetc2 : w.get w.cursor = .ok ⟨w.cursor, vc, w.is_ignored w.cursor⟩ := hgetc
  obtain ⟨row0, v0, _, _, hget⟩ := get2_ok_of_bounds hrect
    (a := w.cursor.1 + 1) (b := w.cursor.2) (by omega) hn1 hc20 hc21
  constructor
  · simp only [ListWalker2D.walk_down, hget]
    simp [hig]
  · refine ⟨rowc, vc, hrowc, hvc, ?_⟩
    simp only [ListWalker2D.walk_down, hget, ListWalker2D.cursor_element, hgetc2]
    simp [hig]

theorem walk_down_boundary_silent {w : ListWalker2D T} (hrect : w.Rectangular)
    (jump : Bool)
    (hc10 : 0 ≤ w.cursor.1) (hc11 : w.cursor.1 < (w.size).1)
    (hc20 : 0 ≤ w.cursor.2) (hc21 : w.cursor.2 < (w.size).2)
    (hb : w.cursor.1 + 1 < 0 ∨ (w.size).1 ≤ w.cursor.1 + 1) :
    ∃ row v, w.data[w.cursor.1.toNat]? = some row ∧
      row[w.cursor.2.toNat]? = some v ∧
      w.walk_down jump true = (w, .ok ⟨w.cursor, v, w.is_ignored w.cursor⟩) := by
  obtain ⟨rowc, vc, hrowc, hvc, hgetc⟩ := get2_ok_of_bounds hrect
    (a := w.cursor.1) (b := w.cursor.2) hc10 hc11 hc20 hc21
  have hgetc2 : w.get w.cursor = .ok ⟨w.cursor, vc, w.is_ignored w.cursor⟩ := hgetc
  have hget : w.get (w.cursor.1 + 1, w.cursor.2) = .error .outOfRange :=
    get2_oob (hb.elim (fun h => Or.inl h) (fun h => Or.inr (Or.inl h)))
  refine ⟨rowc, vc, hrowc, hvc, ?_⟩
  simp only [ListWalker2D.walk_down, hget, ListWalker2D.cursor_element, hgetc2]
  simp

theorem walk_down_result (w : ListWalker2D T) (jump silent : Bool) :
    (w.walk_down jump silent).1 = w ∨
      ((w.walk_down jump silent).1.data = w.data ∧
        0 ≤ (w.walk_down jump silent).1.cursor.1 ∧
        (w.walk_down jump silent).1.cursor.1 < (w.size).1 ∧
        0 ≤ (w.walk_down jump silent).1.cursor.2 ∧
        (w.walk_down jump silent).1.cursor.2 < (w.size).2 ∧
        w.is_ignored ((w.walk_down jump silent).1.cursor) = false) := by
  simp only [ListWalker2D.walk_down]
  split
  · split
    · exact Or.inl rfl
    · exact Or.inl rfl
  · split
    · split
      · exact Or.inl rfl
      · exact Or.inl rfl
    · rename_i element hget hnb
      split
      · rename_i r c el haux
        obtain ⟨hcb, h0, h1, h2, h3, hq, _, _⟩ := walkDownAux_ok_inv haux
        exact Or.inr ⟨rfl, h0, h1, h2, h3, hq⟩
      · split
        · exact Or.inl rfl
        · exact Or.inl rfl

theorem walk_down_preserves_col (w : ListWalker2D T) (jump silent : Bool) :
    ((w.walk_down jump silent).1).cursor.2 = w.cursor.2 := by
  simp only [ListWalker2D.walk_down]
  split
  · split
    · rfl
    · rfl
  · split
    · split
      · rfl
      · rfl
    · rename_i element hget hnb
      split
      · rename_i r c el haux
        exact (walkDownAux_ok_inv haux).1
      · split
        · rfl
        · rfl

theorem walk_right2_first_non_ignored {w : ListWalker2D T} {q : Int}
    (hrect : w.Rectangular) (s : Bool)
    (hc10 : 0 ≤ w.cursor.1) (hc11 : w.cursor.1 < (w.size).1)
    (hc20 : 0 ≤ w.cursor.2)
    (hq : w.cursor.2 < q) (hq1 : q < (w.size).2)
    (hqf : w.is_ignored (w.cursor.1, q) = false)
    (hrun : ∀ r, w.cursor.2 < r → r < q → w.is_ignored (w.cursor.1, r) = true) :
    ∃ row v, w.data[w.cursor.1.toNat]? = some row ∧ row[q.toNat]? = some v ∧
      w.walk_right true s =
        ({ w with cursor := (w.cursor.1, q) }, .ok ⟨(w.cursor.1, q), v, false⟩) := by
  obtain ⟨row0, v0, _, _, hget⟩ := get2_ok_of_bounds hrect
    (a := w.cursor.1) (b := w.cursor.2 + 1) hc10 hc11 (by omega) (by omega)
  obtain ⟨row, v, hrow, hv, haux⟩ := walkRightAux2_finds hrect
    (a := w.cursor.1) (b := w.cursor.2 + 1) (q := q) hc10 hc11
    (by omega) (by omega) hq1 hqf (fun r h1 h2 => hrun r (by omega) h2)
  refine ⟨row, v, hrow, hv, ?_⟩
  simp only [ListWalker2D.walk_right, hget, haux]
  simp

theorem walk_right2_all_ignored {w : ListWalker2D T} (hrect : w.Rectangular)
    (hc10 : 0 ≤ w.cursor.1) (hc11 : w.cursor.1 < (w.size).1)
    (hc20 : 0 ≤ w.cursor.2) (hc21 : w.cursor.2 < (w.size).2)
    (hrun : ∀ r, w.cursor.2 < r → r < (w.size).2 →
      w.is_ignored (w.cursor.1, r) = true) :
    w.walk_right true false = (w, .error .outOfRange) ∧
      ∃ row v, w.data[w.cursor.1.toNat]? = some row ∧
        row[w.cursor.2.toNat]? = some v ∧
        w.walk_right true true = (w, .ok ⟨w.cursor, v, w.is_ignored w.cursor⟩) := by
  obtain ⟨rowc, vc, hrowc, hvc, hgetc⟩ := get2_ok_of_bounds hrect
    (a := w.cursor.1) (b := w.cursor.2) hc10 hc11 hc20 hc21
  have hgetc2 : w.get w.cursor = .ok ⟨w.cursor, vc, w.is_ignored w.cursor⟩ := hgetc
  by_cases hb : (w.size).2 ≤ w.cursor.2 + 1
  · have hget : w.get (w.cursor.1, w.cursor.2 + 1) = .error .outOfRange :=
      get2_oob (Or.inr (Or.inr (Or.inr hb)))
    constructor
    · simp only [ListWalker2D.walk_right, hget]
      simp
    · refine ⟨rowc, vc, hrowc, hvc, ?_⟩
      simp only [ListWalker2D.walk_right, hget, ListWalker2D.cursor_element, hgetc2]
      simp
  · obtain ⟨row0, v0, _, _, hget⟩ := get2_ok_of_bounds hrect
      (a := w.cursor.1) (b := w.cursor.2 + 1) hc10 hc11 (by omega) (by omega)
    have haux : w.walkRightAux (w.cursor.1, w.cursor.2 + 1) = .error .outOfRange :=
      walkRightAux2_all_ignored (a := w.cursor.1) (b := w.cursor.2 + 1)
        (fun r h1 h2 => hrun r (by omega) h2)
    constructor
    · simp only [ListWalker2D.walk_right, hget, haux]
      simp
    · refine ⟨rowc, vc, hrowc, hvc, ?_⟩
      simp only [ListWalker2D.walk_right, hget, haux,
        ListWalker2D.cursor_element, hgetc2]
      simp

theorem walk_right2_blocked {w : ListWalker2D T} (hrect : w.Rectangular)
    (hc10 : 0 ≤ w.cursor.1) (hc11 : w.cursor.1 < (w.size).1)
    (hc20 : 0 ≤ w.cursor.2)
    (hn1 : w.cursor.2 + 1 < (w.size).2)
    (hig : w.is_ignored (w.cursor.1, w.cursor.2 + 1) = true) :
    w.walk_right false false = (w, .error .cannotWalk) ∧
      ∃ row v, w.data[w.cursor.1.toNat]? = some row ∧
        row[w.cursor.2.toNat]? = some v ∧
        w.walk_right false true = (w, .ok ⟨w.cursor, v, w.is_ignored w.cursor⟩) := by
  obtain ⟨rowc, vc, hrowc, hvc, hgetc⟩ := get2_ok_of_bounds hrect
    (a := w.cursor.1) (b := w.cursor.2) hc10 hc11 hc20 (by omega)
  have hgetc2 : w.get w.cursor = .ok ⟨w.cursor, vc, w.is_ignored w.cursor⟩ := hgetc
  obtain ⟨row0, v0, _, _, hget⟩ := get2_ok_of_bounds hrect
    (a := w.cursor.1) (b := w.cursor.2 + 1) hc10 hc11 (by omega) hn1
  constructor
  · simp only [ListWalker2D.walk_right, hget]
    simp [hig]
  · refine ⟨rowc, vc, hrowc, hvc, ?_⟩
    simp only [ListWalker2D.walk_right, hget, ListWalker2D.cursor_element, hgetc2]
    simp [hig]

theorem walk_right2_boundary_silent {w : ListWalker2D T} (hrect : w.Rectangular)
    (jump : Bool)
    (hc10 : 0 ≤ w.cursor.1) (hc11 : w.cursor.1 < (w.size).1)
    (hc20 : 0 ≤ w.cursor.2) (hc21 : w.cursor.2 < (w.size).2)
    (hb : w.cursor.2 + 1 < 0 ∨ (w.size).2 ≤ w.cursor.2 + 1) :
    ∃ row v, w.data[w.cursor.1.toNat]? = some row ∧
      row[w.cursor.2.toNat]? = some v ∧
      w.walk_right jump true = (w, .ok ⟨w.cursor, v, w.is_ignored w.cursor⟩) := by
  obtain ⟨rowc, vc, hrowc, hvc, hgetc⟩ := get2_ok_of_bounds hrect
    (a := w.cursor.1) (b := w.cursor.2) hc10 hc11 hc20 hc21
  have hgetc2 : w.get w.cursor = .ok ⟨w.cursor, vc, w.is_ignored w.cursor⟩ := hgetc
  have hget : w.get (w.cursor.1, w.cursor.2 + 1) = .error .outOfRange :=
    get2_oob (hb.elim (fun h => Or.inr (Or.inr (Or.inl h)))
      (fun h => Or.inr (Or.inr (Or.inr h))))
  refine ⟨rowc, vc, hrowc, hvc, ?_⟩
  simp only [ListWalker2D.walk_right, hget, ListWalker2D.cursor_element, hgetc2]
  simp

theorem walk_right2_result (w : ListWalker2D T) (jump silent : Bool) :
    (w.walk_right jump silent).1 = w ∨
      ((w.walk_right jump silent).1.data = w.data ∧
        0 ≤ (w.walk_right jump silent).1.cursor.1 ∧
        (w.walk_right jump silent).1.cursor.1 < (w.size).1 ∧
        0 ≤ (w.walk_right jump silent).1.cursor.2 ∧
        (w.walk_right jump silent).1.cursor.2 < (w.size).2 ∧
        w.is_ignored ((w.walk_right jump silent).1.cursor) = false) := by
  simp only [ListWalker2D.walk_right]
  split
  · split
    · exact Or.inl rfl
    · exact Or.inl rfl
  · split
    · split
      · exact Or.inl rfl
      · exact Or.inl rfl
    · rename_i element hget hnb
      split
      · rename_i r c el haux
        obtain ⟨hcb, h0, h1, h2, h3, hq, _, _⟩ := walkRightAux2_ok_inv haux
        exact Or.inr ⟨rfl, h0, h1, h2, h3, hq⟩
      · split
        · exact Or.inl rfl
        · exact Or.inl rfl

theorem walk_right2_preserves_row (w : ListWalker2D T) (jump silent : Bool) :
    ((w.walk_right jump silent).1).cursor.1 = w.cursor.1 := by
  simp only [ListWalker2D.walk_right]
  split
  · split
    · rfl
    · rfl
  · split
    · split
      · rfl
      · rfl
    · rename_i element hget hnb
      split
      · rename_i r c el haux
        exact (walkRightAux2_ok_inv haux).1
      · split
        · rfl
        · rfl

theorem walk_left2_first_non_ignored {w : ListWalker2D T} {q : Int}
    (hrect : w.Rectangular) (s : Bool)
    (hc10 : 0 ≤ w.cursor.1) (hc11 : w.cursor.1 < (w.size).1)
    (hc21 : w.cursor.2 < (w.size).2)
    (hq0 : 0 ≤ q) (hq : q < w.cursor.2)
    (hqf : w.is_ignored (w.cursor.1, q) = false)
    (hrun : ∀ r, q < r → r < w.cursor.2 → w.is_ignored (w.cursor.1, r) = true) :
    ∃ row v, w.data[w.cursor.1.toNat]? = some row ∧ row[q.toNat]? = some v ∧
      w.walk_left true s =
        ({ w with cursor := (w.cursor.1, q) }, .ok ⟨(w.cursor.1, q), v, false⟩) := by
  obtain ⟨row0, v0, _, _, hget⟩ := get2_ok_of_bounds hrect
    (a := w.cursor.1) (b := w.cursor.2 - 1) hc10 hc11 (by omega) (by omega)
  obtain ⟨row, v, hrow, hv, haux⟩ := walkLeftAux2_finds hrect
    (a := w.cursor.1) (b := w.cursor.2 - 1) (q := q) hc10 hc11
    hq0 (by omega) (by omega) hqf (fun r h1 h2 => hrun r h1 (by omega))
  refine ⟨row, v, hrow, hv, ?_⟩
  simp only [ListWalker2D.walk_left, hget, haux]
  simp

theorem walk_left2_all_ignored {w : ListWalker2D T} (hrect : w.Rectangular)
    (hc10 : 0 ≤ w.cursor.1) (hc11 : w.cursor.1 < (w.size).1)
    (hc20 : 0 ≤ w.cursor.2) (hc21 : w.cursor.2 < (w.size).2)
    (hrun : ∀ r, 0 ≤ r → r < w.cursor.2 → w.is_ignored (w.cursor.1, r) = true) :
    w.walk_left true false = (w, .error .outOfRange) ∧
      ∃ row v, w.data[w.cursor.1.toNat]? = some row ∧
        row[w.cursor.2.toNat]? = some v ∧
        w.walk_left true true = (w, .ok ⟨w.cursor, v, w.is_ignored w.cursor⟩) := by
  obtain ⟨rowc, vc, hrowc, hvc, hgetc⟩ := get2_ok_of_bounds hrect
    (a := w.cursor.1) (b := w.cursor.2) hc10 hc11 hc20 hc21
  have hgetc2 : w.get w.cursor = .ok ⟨w.cursor, vc, w.is_ignored w.cursor⟩ := hgetc
  by_cases hb : w.cursor.2 - 1 < 0
  · have hget : w.get (w.cursor.1, w.cursor.2 - 1) = .error .outOfRange :=
      get2_oob (Or.inr (Or.inr (Or.inl hb)))
    constructor
    · simp only [ListWalker2D.walk_left, hget]
      simp
    · refine ⟨rowc, vc, hrowc, hvc, ?_⟩
      simp only [ListWalker2D.walk_left, hget, ListWalker2D.cursor_element, hgetc2]
      simp
  · obtain ⟨row0, v0, _, _, hget⟩ := get2_ok_of_bounds hrect
      (a := w.cursor.1) (b := w.cursor.2 - 1) hc10 hc11 (by omega) (by omega)
    have haux : w.walkLeftAux (w.cursor.1, w.cursor.2 - 1) = .error .outOfRange :=
      walkLeftAux2_all_ignored (a := w.cursor.1) (b := w.cursor.2 - 1)
        (fun r h1 h2 => hrun r h1 (by omega))
    constructor
    · simp only [ListWalker2D.walk_left, hget, haux]
      simp
    · refine ⟨rowc, vc, hrowc, hvc, ?_⟩
      simp only [ListWalker2D.walk_left, hget, haux,
        ListWalker2D.cursor_element, hgetc2]
      simp

theorem walk_left2_blocked {w : ListWalker2D T} (hrect : w.Rectangular)
    (hc10 : 0 ≤ w.cursor.1) (hc11 : w.cursor.1 < (w.size).1)
    (hc21 : w.cursor.2 < (w.size).2)
    (hn1 : 0 ≤ w.cursor.2 - 1)
    (hig : w.is_ignored (w.cursor.1, w.cursor.2 - 1) = true) :
    w.walk_left false false = (w, .error .cannotWalk) ∧
      ∃ row v, w.data[w.cursor.1.toNat]? = some row ∧
        row[w.cursor.2.toNat]? = some v ∧
        w.walk_left false true = (w, .ok ⟨w.cursor, v, w.is_ignored w.cursor⟩) := by
  obtain ⟨rowc, vc, hrowc, hvc, hgetc⟩ := get2_ok_of_bounds hrect
    (a := w.cursor.1) (b := w.cursor.2) hc10 hc11 (by omega) hc21
  have hgetc2 : w.get w.cursor = .ok ⟨w.cursor, vc, w.is_ignored w.cursor⟩ := hgetc
  obtain ⟨row0, v0, _, _, hget⟩ := get2_ok_of_bounds hrect
    (a := w.cursor.1) (b := w.cursor.2 - 1) hc10 hc11 hn1 (by omega)
  constructor
  · simp only [ListWalker2D.walk_left, hget]
    simp [hig]
  · refine ⟨rowc, vc, hrowc, hvc, ?_⟩
    simp only [ListWalker2D.walk_left, hget, ListWalker2D.cursor_element, hgetc2]
    simp [hig]

theorem walk_left2_boundary_silent {w : ListWalker2D T} (hrect : w.Rectangular)
    (jump : Bool)
    (hc10 : 0 ≤ w.cursor.1) (hc11 : w.cursor.1 < (w.size).1)
    (hc20 : 0 ≤ w.cursor.2) (hc21 : w.cursor.2 < (w.size).2)
    (hb : w.cursor.2 - 1 < 0 ∨ (w.size).2 ≤ w.cursor.2 - 1) :
    ∃ row v, w.data[w.cursor.1.toNat]? = some row ∧
      row[w.cursor.2.toNat]? = some v ∧
      w.walk_left jump true = (w, .ok ⟨w.cursor, v, w.is_ignored w.cursor⟩) := by
  obtain ⟨rowc, vc, hrowc, hvc, hgetc⟩ := get2_ok_of_bounds hrect
    (a := w.cursor.1) (b := w.cursor.2) hc10 hc11 hc20 hc21
  have hgetc2 : w.get w.cursor = .ok ⟨w.cursor, vc, w.is_ignored w.cursor⟩ := hgetc
  have hget : w.get (w.cursor.1, w.cursor.2 - 1) = .error .outOfRange :=
    get2_oob (hb.elim (fun h => Or.inr (Or.inr (Or.inl h)))
      (fun h => Or.inr (Or.inr (Or.inr h))))
  refine ⟨rowc, vc, hrowc, hvc, ?_⟩
  simp only [ListWalker2D.walk_left, hget, ListWalker2D.cursor_element, hgetc2]
  simp

theorem walk_left2_result (w : ListWalker2D T) (jump silent : Bool) :
    (w.walk_left jump silent).1 = w ∨
      ((w.walk_left jump silent).1.data = w.data ∧
        0 ≤ (w.walk_left jump silent).1.cursor.1 ∧
        (w.walk_left jump silent).1.cursor.1 < (w.size).1 ∧
        0 ≤ (w.walk_left jump silent).1.cursor.2 ∧
        (w.walk_left jump silent).1.cursor.2 < (w.size).2 ∧
        w.is_ignored ((w.walk_left jump silent).1.cursor) = false) := by
  simp only [ListWalker2D.walk_left]
  split
  · split
    · exact Or.inl rfl
    · exact Or.inl rfl
  · split
    · split
      · exact Or.inl rfl
      · exact Or.inl rfl
    · rename_i element hget hnb
      split
      · rename_i r c el haux
        obtain ⟨hcb, h0, h1, h2, h3, hq, _, _⟩ := walkLeftAux2_ok_inv haux
        exact Or.inr ⟨rfl, h0, h1, h2, h3, hq⟩
      · split
        · exact Or.inl rfl
        · exact Or.inl rfl

theorem walk_left2_preserves_row (w : ListWalker2D T) (jump silent : Bool) :
    ((w.walk_left jump silent).1).cursor.1 = w.cursor.1 := by
  simp only [ListWalker2D.walk_left]
  split
  · split
    · rfl
    · rfl
  · split
    · split
      · rfl
      · rfl
    · rename_i element hget hnb
      split
      · rename_i r c el haux
        exact (walkLeftAux2_ok_inv haux).1
      · split
        · rfl
        · rfl

end ListWalker2D

/-! ## The claims -/

/-- Claim C10: a freshly constructed walker has cursor `0` (1D) or `(0, 0)`
(2D) and an empty ignored-set, for every input sequence including the empty
one; the initial cursor does not depend on the data. -/
theorem claim_C10_init_state :
    (∀ (U : Type) (data : List U),
      (ListWalker1D.init data).cursor = 0 ∧
        (ListWalker1D.init data).ignored_elements = []) ∧
    (∀ (U : Type) (data : List (List U)),
      (ListWalker2D.init data).cursor = (0, 0) ∧
        (ListWalker2D.init data).ignored_elements = []) :=
  ⟨fun _ _ => ⟨rfl, rfl⟩, fun _ _ => ⟨rfl, rfl⟩⟩

/-- Claim C5: `get` at any position with a coordinate negative or at least
the corresponding size fails with `OutOfRange`.  In the embedding `get` is a
pure function of the walker — it performs no assignment in the source — so
cursor and ignored-set are unchanged by construction. -/
theorem claim_C5_get_out_of_bounds :
    (∀ (U : Type) (w : ListWalker1D U) (p : Int),
      p < 0 ∨ w.size ≤ p → w.get p = .error .outOfRange) ∧
    (∀ (U : Type) (w : ListWalker2D U) (p : Int × Int),
      p.1 < 0 ∨ (w.size).1 ≤ p.1 ∨ p.2 < 0 ∨ (w.size).2 ≤ p.2 →
        w.get p = .error .outOfRange) :=
  ⟨fun _ _ _ h => ListWalker1D.get_oob h,
   fun _ _ _ h => ListWalker2D.get2_oob h⟩

/-- Claim C6: for every in-bounds position `get` succeeds, and the element
returned carries that position, the live ignored flag, and the value of the
underlying data there (for 2D under the construction contract that rows are
equal-length). -/
theorem claim_C6_get_in_bounds :
    (∀ (U : Type) (w : ListWalker1D U) (p : Int),
      0 ≤ p → p < w.size →
      ∃ el, w.get p = .ok el ∧ el.position = p ∧
        el.is_ignored = w.is_ignored p ∧ w.data[p.toNat]? = some el.value) ∧
    (∀ (U : Type) (w : ListWalker2D U), w.Rectangular →
      ∀ a b : Int, 0 ≤ a → a < (w.size).1 → 0 ≤ b → b < (w.size).2 →
      ∃ el row, w.get (a, b) = .ok el ∧ el.position = (a, b) ∧
        el.is_ignored = w.is_ignored (a, b) ∧
        w.data[a.toNat]? = some row ∧ row[b.toNat]? = some el.value) := by
  constructor
  · intro U w p h0 h1
    obtain ⟨v, hv, hget⟩ := ListWalker1D.get_ok_of_bounds h0 h1
    exact ⟨⟨p, v, w.is_ignored p⟩, hget, rfl, rfl, hv⟩
  · intro U w hrect a b ha0 ha1 hb0 hb1
    obtain ⟨row, v, hrow, hv, hget⟩ :=
      ListWalker2D.get2_ok_of_bounds hrect ha0 ha1 hb0 hb1
    exact ⟨⟨(a, b), v, w.is_ignored (a, b)⟩, row, hget, rfl, rfl, hrow, hv⟩

/-- Claim C6 witness: the in-bounds `get` property at a concrete input,
`[1, 2, 3, 4, 5]` with indices `2, 3` ignored, queried at position `2`. -/
theorem claim_C6_witness_scenario :
    ∃ el, (⟨[1, 2, 3, 4, 5], 0, [2, 3]⟩ : ListWalker1D Nat).get 2 = .ok el ∧
      el.position = 2 ∧
      el.is_ignored = (⟨[1, 2, 3, 4, 5], 0, [2, 3]⟩ : ListWalker1D Nat).is_ignored 2 ∧
      ([1, 2, 3, 4, 5] : List Nat)[(2 : Int).toNat]? = some el.value :=
  claim_C6_get_in_bounds.1 Nat ⟨[1, 2, 3, 4, 5], 0, [2, 3]⟩ 2
    (by decide) (by decide)

/-- Claim C4, counterexample to the claim as stated: on a walker built from
the empty sequence the cursor is `0`, which is out of bounds, so
`cursor_element` (that is, `get(cursor)`) raises `IndexError` rather than
always succeeding. -/
theorem claim_C4_counterexample_empty :
    (ListWalker1D.init ([] : List Nat)).cursor_element = .error .outOfRange := by
  rfl

/-- Claim C4, amended: `cursor_element` always equals `get(cursor)`, and it
succeeds whenever the cursor is in bounds — which holds for every walker
state reachable from a walker over nonempty data (2D: a nonempty rectangular
grid), but fails with `OutOfRange` for a walker over an empty sequence. -/
theorem claim_C4_cursor_element_amended :
    (∀ (U : Type) (w : ListWalker1D U),
      w.cursor_element = w.get w.cursor ∧
        (0 ≤ w.cursor → w.cursor < w.size →
          ∃ el, w.cursor_element = .ok el)) ∧
    (∀ (U : Type) (w : ListWalker2D U),
      w.cursor_element = w.get w.cursor ∧
        (w.Rectangular → 0 ≤ w.cursor.1 → w.cursor.1 < (w.size).1 →
          0 ≤ w.cursor.2 → w.cursor.2 < (w.size).2 →
          ∃ el, w.cursor_element = .ok el)) := by
  constructor
  · intro U w
    refine ⟨rfl, fun h0 h1 => ?_⟩
    obtain ⟨v, _, hget⟩ := ListWalker1D.get_ok_of_bounds h0 h1
    exact ⟨_, hget⟩
  · intro U w
    refine ⟨rfl, fun hrect h10 h11 h20 h21 => ?_⟩
    obtain ⟨row, v, _, _, hget⟩ :=
      ListWalker2D.get2_ok_of_bounds hrect h10 h11 h20 h21
    have hget2 : w.get w.cursor =
        .ok ⟨w.cursor, v, w.is_ignored w.cursor⟩ := hget
    exact ⟨_, hget2⟩

/-- Claim C3 evaluated at a failing input: on data `[10, 20, 30]` with
cursor `0`, `get_neighbors` called with the explicit position `1` still
answers relative to the cursor — the result has no `left` entry (position
`1` has a left neighbor, the cursor does not) and its `right` entry is the
element at index `1`, not the element at index `2`.  The `position`
parameter is assigned `position or self.cursor` and never read again, which
contradicts the method's own docstring. -/
theorem claim_C3_neighbors_ignore_position :
    (⟨[10, 20, 30], 0, []⟩ : ListWalker1D Nat).get_neighbors (some 1) =
      [("right", ⟨1, 20, false⟩)] := by
  decide

/-- Claim C1: with `jump=true`, a move whose path crosses one or more
consecutive ignored positions lands exactly on the first non-ignored
in-bounds position in that direction and returns its element; when every
remaining position up to the boundary is ignored the move fails with
`OutOfRange` (non-silent) or is a no-op returning the unchanged cursor
element (silent), the cursor unchanged either way.  Conjuncts: the six
directions' success cases (1D right/left, 2D up/down/right/left) followed
by their six all-ignored failure cases.  Cursor-validity hypotheses state
the walker invariant; 2D parts assume the rectangular construction
contract. -/
theorem claim_C1_jump_first_non_ignored :
    (∀ (U : Type) (w : ListWalker1D U) (q : Int) (s : Bool),
      0 ≤ w.cursor → w.cursor + 1 < q → q < w.size →
      w.is_ignored q = false →
      (∀ r, w.cursor < r → r < q → w.is_ignored r = true) →
      ∃ v, w.data[q.toNat]? = some v ∧
        w.walk_right true s = ({ w with cursor := q }, .ok ⟨q, v, false⟩)) ∧
    (∀ (U : Type) (w : ListWalker1D U) (q : Int) (s : Bool),
      w.cursor < w.size → 0 ≤ q → q + 1 < w.cursor →
      w.is_ignored q = false →
      (∀ r, q < r → r < w.cursor → w.is_ignored r = true) →
      ∃ v, w.data[q.toNat]? = some v ∧
        w.walk_left true s = ({ w with cursor := q }, .ok ⟨q, v, false⟩)) ∧
    (∀ (U : Type) (w : ListWalker2D U) (q : Int) (s : Bool), w.Rectangular →
      w.cursor.1 < (w.size).1 → 0 ≤ w.cursor.2 → w.cursor.2 < (w.size).2 →
      0 ≤ q → q + 1 < w.cursor.1 →
      w.is_ignored (q, w.cursor.2) = false →
      (∀ r, q < r → r < w.cursor.1 → w.is_ignored (r, w.cursor.2) = true) →
      ∃ row v, w.data[q.toNat]? = some row ∧ row[w.cursor.2.toNat]? = some v ∧
        w.walk_up true s =
          ({ w with cursor := (q, w.cursor.2) }, .ok ⟨(q, w.cursor.2), v, false⟩)) ∧
    (∀ (U : Type) (w : ListWalker2D U) (q : Int) (s : Bool), w.Rectangular →
      0 ≤ w.cursor.1 → 0 ≤ w.cursor.2 → w.cursor.2 < (w.size).2 →
      w.cursor.1 + 1 < q → q < (w.size).1 →
      w.is_ignored (q, w.cursor.2) = false →
      (∀ r, w.cursor.1 < r → r < q → w.is_ignored (r, w.cursor.2) = true) →
      ∃ row v, w.data[q.toNat]? = some row ∧ row[w.cursor.2.toNat]? = some v ∧
        w.walk_down true s =
          ({ w with cursor := (q, w.cursor.2) }, .ok ⟨(q, w.cursor.2), v, false⟩)) ∧
    (∀ (U : Type) (w : ListWalker2D U) (q : Int) (s : Bool), w.Rectangular →
      0 ≤ w.cursor.1 → w.cursor.1 < (w.size).1 → 0 ≤ w.cursor.2 →
      w.cursor.2 + 1 < q → q < (w.size).2 →
      w.is_ignored (w.cursor.1, q) = false →
      (∀ r, w.cursor.2 < r → r < q → w.is_ignored (w.cursor.1, r) = true) →
      ∃ row v, w.data[w.cursor.1.toNat]? = some row ∧ row[q.toNat]? = some v ∧
        w.walk_right true s =
          ({ w with cursor := (w.cursor.1, q) }, .ok ⟨(w.cursor.1, q), v, false⟩)) ∧
    (∀ (U : Type) (w : ListWalker2D U) (q : Int) (s : Bool), w.Rectangular →
      0 ≤ w.cursor.1 → w.cursor.1 < (w.size).1 → w.cursor.2 < (w.size).2 →
      0 ≤ q → q + 1 < w.cursor.2 →
      w.is_ignored (w.cursor.1, q) = false →
      (∀ r, q < r → r < w.cursor.2 → w.is_ignored (w.cursor.1, r) = true) →
      ∃ row v, w.data[w.cursor.1.toNat]? = some row ∧ row[q.toNat]? = some v ∧
        w.walk_left true s =
          ({ w with cursor := (w.cursor.1, q) }, .ok ⟨(w.cursor.1, q), v, false⟩)) ∧
    (∀ (U : Type) (w : ListWalker1D U),
      0 ≤ w.cursor → w.cursor < w.size →
      (∀ r, w.cursor < r → r < w.size → w.is_ignored r = true) →
      w.walk_right true false = (w, .error .outOfRange) ∧
        ∃ v, w.data[w.cursor.toNat]? = some v ∧
          w.walk_right true true = (w, .ok ⟨w.cursor, v, w.is_ignored w.cursor⟩)) ∧
    (∀ (U : Type) (w : ListWalker1D U),
      0 ≤ w.cursor → w.cursor < w.size →
      (∀ r, 0 ≤ r → r < w.cursor → w.is_ignored r = true) →
      w.walk_left true false = (w, .error .outOfRange) ∧
        ∃ v, w.data[w.cursor.toNat]? = some v ∧
          w.walk_left true true = (w, .ok ⟨w.cursor, v, w.is_ignored w.cursor⟩)) ∧
    (∀ (U : Type) (w : ListWalker2D U), w.Rectangular →
      0 ≤ w.cursor.1 → w.cursor.1 < (w.size).1 →
      0 ≤ w.cursor.2 → w.cursor.2 < (w.size).2 →
      (∀ r, 0 ≤ r → r < w.cursor.1 → w.is_ignored (r, w.cursor.2) = true) →
      w.walk_up true false = (w, .error .outOfRange) ∧
        ∃ row v, w.data[w.cursor.1.toNat]? = some row ∧
          row[w.cursor.2.toNat]? = some v ∧
          w.walk_up true true = (w, .ok ⟨w.cursor, v, w.is_ignored w.cursor⟩)) ∧
    (∀ (U : Type) (w : ListWalker2D U), w.Rectangular →
      0 ≤ w.cursor.1 → w.cursor.1 < (w.size).1 →
      0 ≤ w.cursor.2 → w.cursor.2 < (w.size).2 →
      (∀ r, w.cursor.1 < r → r < (w.size).1 → w.is_ignored (r, w.cursor.2) = true) →
      w.walk_down true false = (w, .error .outOfRange) ∧
        ∃ row v, w.data[w.cursor.1.toNat]? = some row ∧
          row[w.cursor.2.toNat]? = some v ∧
          w.walk_down true true = (w, .ok ⟨w.cursor, v, w.is_ignored w.cursor⟩)) ∧
    (∀ (U : Type) (w : ListWalker2D U), w.Rectangular →
      0 ≤ w.cursor.1 → w.cursor.1 < (w.size).1 →
      0 ≤ w.cursor.2 → w.cursor.2 < (w.size).2 →
      (∀ r, w.cursor.2 < r → r < (w.size).2 → w.is_ignored (w.cursor.1, r) = true) →
      w.walk_right true false = (w, .error .outOfRange) ∧
        ∃ row v, w.data[w.cursor.1.toNat]? = some row ∧
          row[w.cursor.2.toNat]? = some v ∧
          w.walk_right true true = (w, .ok ⟨w.cursor, v, w.is_ignored w.cursor⟩)) ∧
    (∀ (U : Type) (w : ListWalker2D U), w.Rectangular →
      0 ≤ w.cursor.1 → w.cursor.1 < (w.size).1 →
      0 ≤ w.cursor.2 → w.cursor.2 < (w.size).2 →
      (∀ r, 0 ≤ r → r < w.cursor.2 → w.is_ignored (w.cursor.1, r) = true) →
      w.walk_left true false = (w, .error .outOfRange) ∧
        ∃ row v, w.data[w.cursor.1.toNat]? = some row ∧
          row[w.cursor.2.toNat]? = some v ∧
          w.walk_left true true = (w, .ok ⟨w.cursor, v, w.is_ignored w.cursor⟩)) := by
  refine ⟨?_, ?_, ?_, ?_, ?_, ?_, ?_, ?_, ?_, ?_, ?_, ?_⟩
  · intro U w q s h1 h2 h3 h4 h5
    exact ListWalker1D.walk_right_first_non_ignored s h1 (by omega) h3 h4 h5
  · intro U w q s h1 h2 h3 h4 h5
    exact ListWalker1D.walk_left_first_non_ignored s h1 h2 (by omega) h4 h5
  · intro U w q s hrect h1 h2 h3 h4 h5 h6 h7
    exact ListWalker2D.walk_up_first_non_ignored hrect s h1 h2 h3 h4 (by omega) h6 h7
  · intro U w q s hrect h1 h2 h3 h4 h5 h6 h7
    exact ListWalker2D.walk_down_first_non_ignored hrect s h1 h2 h3 (by omega) h5 h6 h7
  · intro U w q s hrect h1 h2 h3 h4 h5 h6 h7
    exact ListWalker2D.walk_right2_first_non_ignored hrect s h1 h2 h3 (by omega) h5 h6 h7
  · intro U w q s hrect h1 h2 h3 h4 h5 h6 h7
    exact ListWalker2D.walk_left2_first_non_ignored hrect s h1 h2 h3 h4 (by omega) h6 h7
  · intro U w h1 h2 h3
    obtain ⟨hns, v, hv, hs⟩ := ListWalker1D.walk_right_all_ignored h1 h2 h3
    exact ⟨hns, v, hv, hs⟩
  · intro U w h1 h2 h3
    obtain ⟨hns, v, hv, hs⟩ := ListWalker1D.walk_left_all_ignored h1 h2 h3
    exact ⟨hns, v, hv, hs⟩
  · intro U w hrect h1 h2 h3 h4 h5
    exact ListWalker2D.walk_up_all_ignored hrect h1 h2 h3 h4 h5
  · intro U w hrect h1 h2 h3 h4 h5
    exact ListWalker2D.walk_down_all_ignored hrect h1 h2 h3 h4 h5
  · intro U w hrect h1 h2 h3 h4 h5
    exact ListWalker2D.walk_right2_all_ignored hrect h1 h2 h3 h4 h5
  · intro U w hrect h1 h2 h3 h4 h5
    exact ListWalker2D.walk_left2_all_ignored hrect h1 h2 h3 h4 h5

/-- Claim C1 witness, the spec's 1D scenario: data `[1, 2, 3, 4, 5]`,
ignored indices `{2, 3}`, cursor `1`; `walk_right()` skips indices `2` and
`3` and lands on index `4` (value `5`). -/
theorem claim_C1_witness_scenario :
    (⟨[1, 2, 3, 4, 5], 1, [2, 3]⟩ : ListWalker1D Nat).walk_right true false =
      (⟨[1, 2, 3, 4, 5], 4, [2, 3]⟩, .ok ⟨4, 5, false⟩) := by
  obtain ⟨v, hv, hw⟩ := claim_C1_jump_first_non_ignored.1 Nat
    ⟨[1, 2, 3, 4, 5], 1, [2, 3]⟩ 4 false (by decide) (by decide) (by decide)
    (by decide)
    (by
      intro r h1 h2
      have h1x : (1 : Int) < r := h1
      have hr : r = 2 ∨ r = 3 := by omega
      rcases hr with rfl | rfl
      · decide
      · decide)
  have hv5 : v = 5 := by
    simp at hv
    omega
  subst hv5
  exact hw

/-- Claim C2: with `jump=false` and the immediate adjacent position in that
direction in-bounds and ignored, a non-silent move fails with `CannotMove`
(`CannotWalkException`) leaving the cursor unchanged, while the identical
silent call returns the current cursor element with the cursor unchanged.
Six conjuncts, one per direction. -/
theorem claim_C2_blocked_no_jump :
    (∀ (U : Type) (w : ListWalker1D U),
      0 ≤ w.cursor → w.cursor < w.size → w.cursor + 1 < w.size →
      w.is_ignored (w.cursor + 1) = true →
      w.walk_right false false = (w, .error .cannotWalk) ∧
        ∃ v, w.data[w.cursor.toNat]? = some v ∧
          w.walk_right false true = (w, .ok ⟨w.cursor, v, w.is_ignored w.cursor⟩)) ∧
    (∀ (U : Type) (w : ListWalker1D U),
      0 ≤ w.cursor → w.cursor < w.size → 0 ≤ w.cursor - 1 →
      w.is_ignored (w.cursor - 1) = true →
      w.walk_left false false = (w, .error .cannotWalk) ∧
        ∃ v, w.data[w.cursor.toNat]? = some v ∧
          w.walk_left false true = (w, .ok ⟨w.cursor, v, w.is_ignored w.cursor⟩)) ∧
    (∀ (U : Type) (w : ListWalker2D U), w.Rectangular →
      w.cursor.1 < (w.size).1 → 0 ≤ w.cursor.2 → w.cursor.2 < (w.size).2 →
      0 ≤ w.cursor.1 - 1 →
      w.is_ignored (w.cursor.1 - 1, w.cursor.2) = true →
      w.walk_up false false = (w, .error .cannotWalk) ∧
        ∃ row v, w.data[w.cursor.1.toNat]? = some row ∧
          row[w.cursor.2.toNat]? = some v ∧
          w.walk_up false true = (w, .ok ⟨w.cursor, v, w.is_ignored w.cursor⟩)) ∧
    (∀ (U : Type) (w : ListWalker2D U), w.Rectangular →
      0 ≤ w.cursor.1 → 0 ≤ w.cursor.2 → w.cursor.2 < (w.size).2 →
      w.cursor.1 + 1 < (w.size).1 →
      w.is_ignored (w.cursor.1 + 1, w.cursor.2) = true →
      w.walk_down false false = (w, .error .cannotWalk) ∧
        ∃ row v, w.data[w.cursor.1.toNat]? = some row ∧
          row[w.cursor.2.toNat]? = some v ∧
          w.walk_down false true = (w, .ok ⟨w.cursor, v, w.is_ignored w.cursor⟩)) ∧
    (∀ (U : Type) (w : ListWalker2D U), w.Rectangular →
      0 ≤ w.cursor.1 → w.cursor.1 < (w.size).1 → 0 ≤ w.cursor.2 →
      w.cursor.2 + 1 < (w.size).2 →
      w.is_ignored (w.cursor.1, w.cursor.2 + 1) = true →
      w.walk_right false false = (w, .error .cannotWalk) ∧
        ∃ row v, w.data[w.cursor.1.toNat]? = some row ∧
          row[w.cursor.2.toNat]? = some v ∧
          w.walk_right false true = (w, .ok ⟨w.cursor, v, w.is_ignored w.cursor⟩)) ∧
    (∀ (U : Type) (w : ListWalker2D U), w.Rectangular →
      0 ≤ w.cursor.1 → w.cursor.1 < (w.size).1 → w.cursor.2 < (w.size).2 →
      0 ≤ w.cursor.2 - 1 →
      w.is_ignored (w.cursor.1, w.cursor.2 - 1) = true →
      w.walk_left false false = (w, .error .cannotWalk) ∧
        ∃ row v, w.data[w.cursor.1.toNat]? = some row ∧
          row[w.cursor.2.toNat]? = some v ∧
          w.walk_left false true = (w, .ok ⟨w.cursor, v, w.is_ignored w.cursor⟩)) := by
  refine ⟨?_, ?_, ?_, ?_, ?_, ?_⟩
  · intro U w h1 h2 h3 h4
    obtain ⟨hns, v, hv, hs⟩ := ListWalker1D.walk_right_blocked h1 h2 h3 h4
    exact ⟨hns, v, hv, hs⟩
  · intro U w h1 h2 h3 h4
    obtain ⟨hns, v, hv, hs⟩ := ListWalker1D.walk_left_blocked h1 h2 h3 h4
    exact ⟨hns, v, hv, hs⟩
  · intro U w hrect h1 h2 h3 h4 h5
    exact ListWalker2D.walk_up_blocked hrect h1 h2 h3 h4 h5
  · intro U w hrect h1 h2 h3 h4 h5
    exact ListWalker2D.walk_down_blocked hrect h1 h2 h3 h4 h5
  · intro U w hrect h1 h2 h3 h4 h5
    exact ListWalker2D.walk_right2_blocked hrect h1 h2 h3 h4 h5
  · intro U w hrect h1 h2 h3 h4 h5
    exact ListWalker2D.walk_left2_blocked hrect h1 h2 h3 h4 h5

/-- Claim C2 witness, the spec's 2D scenario: a 6-row by 5-column grid with
`(1, 0)` ignored and the cursor at `(0, 0)`; `move_down(jump=false)` fails
with `CannotMove`. -/
theorem claim_C2_witness_scenario :
    (⟨[[1, 2, 3, 4, 5], [6, 7, 8, 9, 10], [11, 12, 13, 14, 15],
        [16, 17, 18, 19, 20], [21, 22, 23, 24, 25], [26, 27, 28, 29, 30]],
      (0, 0), [(1, 0), (2, 0), (3, 0), (0, 3)]⟩ : ListWalker2D Nat).walk_down
        false false =
      (⟨[[1, 2, 3, 4, 5], [6, 7, 8, 9, 10], [11, 12, 13, 14, 15],
          [16, 17, 18, 19, 20], [21, 22, 23, 24, 25], [26, 27, 28, 29, 30]],
        (0, 0), [(1, 0), (2, 0), (3, 0), (0, 3)]⟩, .error .cannotWalk) :=
  (claim_C2_blocked_no_jump.2.2.2.1 Nat
    ⟨[[1, 2, 3, 4, 5], [6, 7, 8, 9, 10], [11, 12, 13, 14, 15],
        [16, 17, 18, 19, 20], [21, 22, 23, 24, 25], [26, 27, 28, 29, 30]],
      (0, 0), [(1, 0), (2, 0), (3, 0), (0, 3)]⟩
    (by decide) (by decide) (by decide) (by decide) (by decide) (by decide)).1

/-- Claim C7: when the cursor sits at a boundary for some direction (the
one-step candidate in that direction is out of bounds), any number of
repeated silent moves in that direction leaves the cursor where it was, and
each call returns the unchanged current element.  Six conjuncts, one per
direction; the iterate equation captures the repetition. -/
theorem claim_C7_boundary_silent_idempotent :
    (∀ (U : Type) (w : ListWalker1D U) (jump : Bool) (n : Nat),
      0 ≤ w.cursor → w.cursor < w.size →
      w.cursor + 1 < 0 ∨ w.size ≤ w.cursor + 1 →
      Nat.iterate (fun x => (ListWalker1D.walk_right x jump true).1) n w = w ∧
        ∃ v, w.data[w.cursor.toNat]? = some v ∧
          w.walk_right jump true = (w, .ok ⟨w.cursor, v, w.is_ignored w.cursor⟩)) ∧
    (∀ (U : Type) (w : ListWalker1D U) (jump : Bool) (n : Nat),
      0 ≤ w.cursor → w.cursor < w.size →
      w.cursor - 1 < 0 ∨ w.size ≤ w.cursor - 1 →
      Nat.iterate (fun x => (ListWalker1D.walk_left x jump true).1) n w = w ∧
        ∃ v, w.data[w.cursor.toNat]? = some v ∧
          w.walk_left jump true = (w, .ok ⟨w.cursor, v, w.is_ignored w.cursor⟩)) ∧
    (∀ (U : Type) (w : ListWalker2D U) (jump : Bool) (n : Nat), w.Rectangular →
      0 ≤ w.cursor.1 → w.cursor.1 < (w.size).1 →
      0 ≤ w.cursor.2 → w.cursor.2 < (w.size).2 →
      w.cursor.1 - 1 < 0 ∨ (w.size).1 ≤ w.cursor.1 - 1 →
      Nat.iterate (fun x => (ListWalker2D.walk_up x jump true).1) n w = w ∧
        ∃ row v, w.data[w.cursor.1.toNat]? = some row ∧
          row[w.cursor.2.toNat]? = some v ∧
          w.walk_up jump true = (w, .ok ⟨w.cursor, v, w.is_ignored w.cursor⟩)) ∧
    (∀ (U : Type) (w : ListWalker2D U) (jump : Bool) (n : Nat), w.Rectangular →
      0 ≤ w.cursor.1 → w.cursor.1 < (w.size).1 →
      0 ≤ w.cursor.2 → w.cursor.2 < (w.size).2 →
      w.cursor.1 + 1 < 0 ∨ (w.size).1 ≤ w.cursor.1 + 1 →
      Nat.iterate (fun x => (ListWalker2D.walk_down x jump true).1) n w = w ∧
        ∃ row v, w.data[w.cursor.1.toNat]? = some row ∧
          row[w.cursor.2.toNat]? = some v ∧
          w.walk_down jump true = (w, .ok ⟨w.cursor, v, w.is_ignored w.cursor⟩)) ∧
    (∀ (U : Type) (w : ListWalker2D U) (jump : Bool) (n : Nat), w.Rectangular →
      0 ≤ w.cursor.1 → w.cursor.1 < (w.size).1 →
      0 ≤ w.cursor.2 → w.cursor.2 < (w.size).2 →
      w.cursor.2 + 1 < 0 ∨ (w.size).2 ≤ w.cursor.2 + 1 →
      Nat.iterate (fun x => (ListWalker2D.walk_right x jump true).1) n w = w ∧
        ∃ row v, w.data[w.cursor.1.toNat]? = some row ∧
          row[w.cursor.2.toNat]? = some v ∧
          w.walk_right jump true = (w, .ok ⟨w.cursor, v, w.is_ignored w.cursor⟩)) ∧
    (∀ (U : Type) (w : ListWalker2D U) (jump : Bool) (n : Nat), w.Rectangular →
      0 ≤ w.cursor.1 → w.cursor.1 < (w.size).1 →
      0 ≤ w.cursor.2 → w.cursor.2 < (w.size).2 →
      w.cursor.2 - 1 < 0 ∨ (w.size).2 ≤ w.cursor.2 - 1 →
      Nat.iterate (fun x => (ListWalker2D.walk_left x jump true).1) n w = w ∧
        ∃ row v, w.data[w.cursor.1.toNat]? = some row ∧
          row[w.cursor.2.toNat]? = some v ∧
          w.walk_left jump true = (w, .ok ⟨w.cursor, v, w.is_ignored w.cursor⟩)) := by
  refine ⟨?_, ?_, ?_, ?_, ?_, ?_⟩
  · intro U w jump n h1 h2 h3
    obtain ⟨v, hv, hwalk⟩ := ListWalker1D.walk_right_boundary_silent jump h1 h2 h3
    exact ⟨Function.iterate_fixed (by rw [hwalk]) n, v, hv, hwalk⟩
  · intro U w jump n h1 h2 h3
    obtain ⟨v, hv, hwalk⟩ := ListWalker1D.walk_left_boundary_silent jump h1 h2 h3
    exact ⟨Function.iterate_fixed (by rw [hwalk]) n, v, hv, hwalk⟩
  · intro U w jump n hrect h1 h2 h3 h4 h5
    obtain ⟨row, v, hrow, hv, hwalk⟩ :=
      ListWalker2D.walk_up_boundary_silent hrect jump h1 h2 h3 h4 h5
    exact ⟨Function.iterate_fixed (by rw [hwalk]) n, row, v, hrow, hv, hwalk⟩
  · intro U w jump n hrect h1 h2 h3 h4 h5
    obtain ⟨row, v, hrow, hv, hwalk⟩ :=
      ListWalker2D.walk_down_boundary_silent hrect jump h1 h2 h3 h4 h5
    exact ⟨Function.iterate_fixed (by rw [hwalk]) n, row, v, hrow, hv, hwalk⟩
  · intro U w jump n hrect h1 h2 h3 h4 h5
    obtain ⟨row, v, hrow, hv, hwalk⟩ :=
      ListWalker2D.walk_right2_boundary_silent hrect jump h1 h2 h3 h4 h5
    exact ⟨Function.iterate_fixed (by rw [hwalk]) n, row, v, hrow, hv, hwalk⟩
  · intro U w jump n hrect h1 h2 h3 h4 h5
    obtain ⟨row, v, hrow, hv, hwalk⟩ :=
      ListWalker2D.walk_left2_boundary_silent hrect jump h1 h2 h3 h4 h5
    exact ⟨Function.iterate_fixed (by rw [hwalk]) n, row, v, hrow, hv, hwalk⟩

/-- Claim C7 witness, the spec's boundary scenario: data `[1, 2, 3, 4, 5]`
with the cursor at the last index; three repeated `move_right(silent=True)`
calls leave the cursor at `4`, and the call returns the current element
(value `5`). -/
theorem claim_C7_witness_scenario :
    Nat.iterate
        (fun x => (ListWalker1D.walk_right x true true).1) 3
        (⟨[1, 2, 3, 4, 5], 4, []⟩ : ListWalker1D Nat) =
      (⟨[1, 2, 3, 4, 5], 4, []⟩ : ListWalker1D Nat) ∧
    (⟨[1, 2, 3, 4, 5], 4, []⟩ : ListWalker1D Nat).walk_right true true =
      (⟨[1, 2, 3, 4, 5], 4, []⟩, .ok ⟨4, 5, false⟩) := by
  obtain ⟨hiter, v, hv, hwalk⟩ := claim_C7_boundary_silent_idempotent.1 Nat
    ⟨[1, 2, 3, 4, 5], 4, []⟩ true 3 (by decide) (by decide)
    (Or.inr (by decide))
  have hv5 : v = 5 := by
    simp at hv
    omega
  subst hv5
  exact ⟨hiter, hwalk⟩

/-- Claim C8: every move operation is total — each skip loop is defined by
recursion on the distance from the candidate position to the boundary it
advances toward, so Lean accepts it as terminating — and its result is
sound: either the walker is returned unchanged (the failure and silent
no-op outcomes) or the data is untouched and the new cursor is an in-bounds
non-ignored position.  Six conjuncts, one per direction. -/
theorem claim_C8_walk_terminates_soundly :
    (∀ (U : Type) (w : ListWalker1D U) (jump silent : Bool),
      (w.walk_right jump silent).1 = w ∨
        ((w.walk_right jump silent).1.data = w.data ∧
          0 ≤ (w.walk_right jump silent).1.cursor ∧
          (w.walk_right jump silent).1.cursor < w.size ∧
          w.is_ignored ((w.walk_right jump silent).1.cursor) = false)) ∧
    (∀ (U : Type) (w : ListWalker1D U) (jump silent : Bool),
      (w.walk_left jump silent).1 = w ∨
        ((w.walk_left jump silent).1.data = w.data ∧
          0 ≤ (w.walk_left jump silent).1.cursor ∧
          (w.walk_left jump silent).1.cursor < w.size ∧
          w.is_ignored ((w.walk_left jump silent).1.cursor) = false)) ∧
    (∀ (U : Type) (w : ListWalker2D U) (jump silent : Bool),
      (w.walk_up jump silent).1 = w ∨
        ((w.walk_up jump silent).1.data = w.data ∧
          0 ≤ (w.walk_up jump silent).1.cursor.1 ∧
          (w.walk_up jump silent).1.cursor.1 < (w.size).1 ∧
          0 ≤ (w.walk_up jump silent).1.cursor.2 ∧
          (w.walk_up jump silent).1.cursor.2 < (w.size).2 ∧
          w.is_ignored ((w.walk_up jump silent).1.cursor) = false)) ∧
    (∀ (U : Type) (w : ListWalker2D U) (jump silent : Bool),
      (w.walk_down jump silent).1 = w ∨
        ((w.walk_down jump silent).1.data = w.data ∧
          0 ≤ (w.walk_down jump silent).1.cursor.1 ∧
          (w.walk_down jump silent).1.cursor.1 < (w.size).1 ∧
          0 ≤ (w.walk_down jump silent).1.cursor.2 ∧
          (w.walk_down jump silent).1.cursor.2 < (w.size).2 ∧
          w.is_ignored ((w.walk_down jump silent).1.cursor) = false)) ∧
    (∀ (U : Type) (w : ListWalker2D U) (jump silent : Bool),
      (w.walk_right jump silent).1 = w ∨
        ((w.walk_right jump silent).1.data = w.data ∧
          0 ≤ (w.walk_right jump silent).1.cursor.1 ∧
          (w.walk_right jump silent).1.cursor.1 < (w.size).1 ∧
          0 ≤ (w.walk_right jump silent).1.cursor.2 ∧
          (w.walk_right jump silent).1.cursor.2 < (w.size).2 ∧
          w.is_ignored ((w.walk_right jump silent).1.cursor) = false)) ∧
    (∀ (U : Type) (w : ListWalker2D U) (jump silent : Bool),
      (w.walk_left jump silent).1 = w ∨
        ((w.walk_left jump silent).1.data = w.data ∧
          0 ≤ (w.walk_left jump silent).1.cursor.1 ∧
          (w.walk_left jump silent).1.cursor.1 < (w.size).1 ∧
          0 ≤ (w.walk_left jump silent).1.cursor.2 ∧
          (w.walk_left jump silent).1.cursor.2 < (w.size).2 ∧
          w.is_ignored ((w.walk_left jump silent).1.cursor) = false)) :=
  ⟨fun _ w j s2 => ListWalker1D.walk_right_result w j s2,
   fun _ w j s2 => ListWalker1D.walk_left_result w j s2,
   fun _ w j s2 => ListWalker2D.walk_up_result w j s2,
   fun _ w j s2 => ListWalker2D.walk_down_result w j s2,
   fun _ w j s2 => ListWalker2D.walk_right2_result w j s2,
   fun _ w j s2 => ListWalker2D.walk_left2_result w j s2⟩

/-- Claim C9: in 2D, `walk_up` and `walk_down` never change the column
coordinate of the cursor, and `walk_left` and `walk_right` never change the
row coordinate, for every jump/silent combination and every outcome. -/
theorem claim_C9_axis_frame :
    (∀ (U : Type) (w : ListWalker2D U) (jump silent : Bool),
      ((w.walk_up jump silent).1).cursor.2 = w.cursor.2) ∧
    (∀ (U : Type) (w : ListWalker2D U) (jump silent : Bool),
      ((w.walk_down jump silent).1).cursor.2 = w.cursor.2) ∧
    (∀ (U : Type) (w : ListWalker2D U) (jump silent : Bool),
      ((w.walk_left jump silent).1).cursor.1 = w.cursor.1) ∧
    (∀ (U : Type) (w : ListWalker2D U) (jump silent : Bool),
      ((w.walk_right jump silent).1).cursor.1 = w.cursor.1) :=
  ⟨fun _ w j s2 => ListWalker2D.walk_up_preserves_col w j s2,
   fun _ w j s2 => ListWalker2D.walk_down_preserves_col w j s2,
   fun _ w j s2 => ListWalker2D.walk_left2_preserves_row w j s2,
   fun _ w j s2 => ListWalker2D.walk_right2_preserves_row w j s2⟩

end ListWalker
